import Mathlib

/-!
ProtoCounter (ATtiny2313/4313 three-digit counter module).

A shallow embedding of `ProtoCounter.cpp` / `ProtoCounter.h`: the static class
variables become the fields of `State`, every method becomes a function on
`State`, hardware reads (the button pins, the shift-register input line, the
timer counter) become explicit arguments, and 8-bit / 16-bit machine integers
are natural numbers reduced modulo `2^8` / `2^16` where the source can wrap.
-/

namespace ProtoCounter

/-! ## Constants of `ProtoCounter.h` -/

def ANODE1 : Nat := 7
def ANODE2 : Nat := 6
def ANODE3 : Nat := 5
def BTN_COM : Nat := 6
def SH_REG_OUT_BIT : Nat := 5
def SH_REG_IN_BIT : Nat := 6
def SH_REG_CLK_BIT : Nat := 7
def SH_REG_LD_BIT : Nat := 0

def MAX_DIGITS : Nat := 3
def DIMMING : Nat := 4
def DECIMAL_PLACES : Nat := 0
def MAX_DECIMAL : Int := 999
def MIN_DECIMAL : Int := -99

def SH_REG_IN_BITCOUNT : Nat := 8
def SH_REG_OUT_BITCOUNT : Nat := 8
def SH_REG_MSB_MASK : Nat := 1 <<< (SH_REG_OUT_BITCOUNT - 1)

def ANALOG_MAX_RESOLUTION : Nat := 0
def ANALOG_129_DETENT_STEPS : Nat := 1
def ANALOG_86_DETENT_STEPS : Nat := 2
def ANALOG_65_DETENT_STEPS : Nat := 3
def ANALOG_43_DETENT_STEPS : Nat := 4
def ANALOG_33_DETENT_STEPS : Nat := 5
def ANALOG_22_DETENT_STEPS : Nat := 6
def ANALOG_OFF : Nat := 7

def BTN_SAMPLE_INTERVAL : Nat := 10
def BTN_LONGPRESS_DELAY : Nat := 50

def BTN1_BIT : Nat := 5
def BTN2_BIT : Nat := 7
def BUTTON1 : Nat := 1 <<< BTN1_BIT
def BUTTON2 : Nat := 1 <<< BTN2_BIT
def BOTH_BTNS : Nat := BUTTON1 ||| BUTTON2
def BTN_MASK : Nat := BUTTON1 ||| BUTTON2
def PB_PRESS : Nat := 1 <<< 1
def PB_RELEASE : Nat := 0 <<< 1
def PB_LONG : Nat := 1 <<< 2
def PB_LONGPRESS : Nat := PB_LONG ||| PB_PRESS
def PB_ACK : Nat := 1 <<< 3

def BTN1_PRESSED : Nat := BUTTON1 ||| PB_PRESS
def BTN1_RELEASED : Nat := BUTTON1 ||| PB_RELEASE
def BTN1_LONGPRESSED : Nat := BUTTON1 ||| PB_LONGPRESS
def BTN2_PRESSED : Nat := BUTTON2 ||| PB_PRESS
def BTN2_RELEASED : Nat := BUTTON2 ||| PB_RELEASE
def BTN2_LONGPRESSED : Nat := BUTTON2 ||| PB_LONGPRESS
def BOTH_PRESSED : Nat := BOTH_BTNS ||| PB_PRESS
def BOTH_RELEASED : Nat := BOTH_BTNS ||| PB_RELEASE
def BOTH_LONGPRESSED : Nat := BOTH_BTNS ||| PB_LONGPRESS

/-! ## Machine integers -/

/-- The operator `~` on a `uint8_t`: the one's complement of the low eight bits. -/
def not8 (x : Nat) : Nat := 255 - x % 256

/-- The bit pattern of an `int16_t` as a number in `0 .. 65535` (two's complement). -/
def toU16 (val : Int) : Nat := (val % 65536).toNat

/-! ## The static class variables -/

/-- The static member variables of class `ProtoCounter`, together with the
function-static `current_pos` of `update()` and the two output ports that
`update()` drives: `portb` is `PORTB` (the digit anodes, active low, on bits
7, 6, 5) and `portd` is `PORTD` (the led segments). `display i` is `display[i]`
(led patterns stored inverted: 0 = on, 1 = off; index 0 is the rightmost digit). -/
structure State where
  display : Nat → Nat
  button : Nat
  dimming : Nat
  analog_resolution : Nat
  decimal_places : Nat
  pb_timer : Nat
  pb_delay_timer : Nat
  sh_reg_in_data : Nat
  sh_reg_out_data : Nat
  analog : Nat
  start_time : Nat
  current_pos : Nat
  portb : Nat
  portd : Nat

/-- The state in which every variable is zero (the C++ start-up value of statics). -/
def State.zero : State :=
  { display := fun _ => 0, button := 0, dimming := 0, analog_resolution := 0,
    decimal_places := 0, pb_timer := 0, pb_delay_timer := 0, sh_reg_in_data := 0,
    sh_reg_out_data := 0, analog := 0, start_time := 0, current_pos := 0,
    portb := 0, portd := 0 }

/-! ## Display buffer -/

/-- Method `ProtoCounter::clearDisplay`: every cell becomes `0xFF` (all segments off). -/
def clearDisplay (s : State) : State :=
  { s with display := fun i => if i < MAX_DIGITS then 0xFF else s.display i }

/-- Method `ProtoCounter::getDisplay`: the stored cell, complemented (1 = led on). -/
def getDisplay (s : State) (pos : Nat) : Nat :=
  not8 (s.display pos)

/-- Method `ProtoCounter::setDisplay`: store the complemented pattern, ignoring
positions outside the buffer. -/
def setDisplay (s : State) (led_pattern pos : Nat) : State :=
  if pos ≥ MAX_DIGITS then s
  else { s with display := fun i => if i = pos then not8 led_pattern else s.display i }

/-- The character generator table of `writeChar` (7-segment patterns). -/
def char_gen : List Nat :=
  [0x00, 0x30, 0x22, 0x14, 0x2D, 0x1B, 0x70, 0x20,
   0x39, 0x0F, 0x63, 0x46, 0x10, 0x40, 0x80, 0x52,
   0x3F, 0x06, 0x5B, 0x4F, 0x66, 0x6D, 0x7D, 0x07,
   0x7F, 0x6F, 0x09, 0x36, 0x58, 0x48, 0x4C, 0x53,
   0x5F, 0x77, 0x7C, 0x58, 0x5E, 0x79, 0x71, 0x3D,
   0x74, 0x10, 0x1E, 0x76, 0x38, 0x37, 0x54, 0x5C,
   0x73, 0x67, 0x50, 0x6D, 0x78, 0x1C, 0x3E, 0x2A,
   0x49, 0x6E, 0x5B, 0x31, 0x64, 0x0E, 0x23, 0x08]

/-- The table index `writeChar` computes from a character code: codes 0 to 15
are mapped to '0'..'9', 'A'..'F', small letters to capital letters, codes 16
to 31 and codes above 127 to the space. -/
def charIndex (ascii_code : Nat) : Nat :=
  if ascii_code ≤ 9 then ascii_code + 16
  else if ascii_code ≤ 15 then ascii_code + 23
  else if ascii_code ≤ 31 then 0
  else if ascii_code ≤ 95 then ascii_code - 32
  else if ascii_code ≤ 127 then ascii_code - 64
  else 0

/-- The pattern `pgm_read_byte(&char_gen[ascii_code])` that `writeChar` passes
to `setDisplay`. -/
def glyph (ascii_code : Nat) : Nat :=
  char_gen.getD (charIndex ascii_code) 0

/-- Method `ProtoCounter::writeChar`: look the code up in the character generator and
store the pattern at `pos`. -/
def writeChar (s : State) (ascii_code pos : Nat) : State :=
  setDisplay s (glyph ascii_code) pos

/-- The loop of `writeString_P`: `st` is the run of bytes at the string pointer
(its end stands for the terminating NUL), `pos` the loop variable. -/
def writeString_P_loop (s : State) : List Nat → Nat → State
  | [], _ => s
  | _ :: _, 0 => s
  | ch :: st, pos + 1 =>
    if ch = 0 then s else writeString_P_loop (writeChar s ch pos) st pos

/-- Method `ProtoCounter::writeString_P`: write a string right-justified, starting at
the leftmost position `MAX_DIGITS - 1`. -/
def writeString_P (s : State) (st : List Nat) : State :=
  writeString_P_loop s st MAX_DIGITS

/-- One pass of the conversion loop of `writeInt` over `digit[0..2]` and the
16-bit pattern of `val`: double every digit, shift bit 7 of `val` in, correct
digits above 9, and shift `val` left. -/
def convStep (st : (Nat × Nat × Nat) × Nat) : (Nat × Nat × Nat) × Nat :=
  let val := st.2
  let d0 := (st.1.1 * 2) % 256
  let d1 := (st.1.2.1 * 2) % 256
  let d2 := (st.1.2.2 * 2) % 256
  let d0 := if val &&& 0x80 ≠ 0 then (d0 + 1) % 256 else d0
  let c0 := decide (d0 > 9)
  let d0 := if c0 then d0 - 10 else d0
  let d1 := if c0 then (d1 + 1) % 256 else d1
  let c1 := decide (d1 > 9)
  let d1 := if c1 then d1 - 10 else d1
  let d2 := if c1 then (d2 + 1) % 256 else d2
  ((d0, d1, d2), (val <<< 1) % 65536)

/-- The digit conversion of `writeInt`: `digit[0]` is loaded with
`(val >> 8) & 11`, then the loop body runs eight times. The result is
`(digit[0], digit[1], digit[2])`. -/
def convertDigits (val : Nat) : Nat × Nat × Nat :=
  (convStep^[8] (((val >>> 8) &&& 11, 0, 0), val)).1

/-- Array access `digit[ii]`. -/
def digitAt (digit : Nat × Nat × Nat) (ii : Nat) : Nat :=
  if ii = 0 then digit.1 else if ii = 1 then digit.2.1 else digit.2.2

/-- The `do ... while (ii > 0)` loop of `writeInt`, entered with `ii ≥ 1`
(the code enters it with `ii = 3` or `ii = 2`): `d` is the character shown
last, a blank (`' '` = 32) as long as leading zeroes are suppressed. -/
def writeDigits (s : State) (digit : Nat × Nat × Nat) : Nat → Nat → State
  | 0, _ => s
  | ii + 1, d =>
    let d := if d ≠ 32 ∨ ii = s.decimal_places ∨ digitAt digit ii > 0
             then digitAt digit ii else d
    let s := writeChar s d ii
    if ii > 0 then writeDigits s digit ii d else s

/-- Method `ProtoCounter::writeInt`: show an `int16_t` in `-99 .. 999` as a decimal
number, `0FL` / `VFL` outside of that range. -/
def writeInt (s : State) (val : Int) : State :=
  if val > MAX_DECIMAL then writeString_P s [48, 70, 76]
  else if val < MIN_DECIMAL then writeString_P s [86, 70, 76]
  else
    let neg := decide (val < 0)
    let val := if neg then -val else val
    let s := if neg then writeChar s 45 (MAX_DIGITS - 1) else s
    let ii := if neg then MAX_DIGITS - 1 else MAX_DIGITS
    writeDigits s (convertDigits (toU16 val)) ii 32

/-- Method `ProtoCounter::setDecimalPlaces`. -/
def setDecimalPlaces (s : State) (decimals : Nat) : State :=
  if decimals < MAX_DIGITS then { s with decimal_places := decimals } else s

/-- The index of the most significant non-zero decimal digit of `v < 1000`
(0 when `v` has no non-zero digit). -/
def msdIndex (v : Nat) : Nat :=
  if v / 100 % 10 ≠ 0 then 2 else if v / 10 % 10 ≠ 0 then 1 else 0

/-! ## Push buttons -/

/-- The reading of the push buttons in `sampleButtons`: `pb = ~BTN_PIN`,
masked with `BTN_MASK` (a pressed button pulls its pin low). -/
def readButtons (btn_pin : Nat) : Nat :=
  not8 btn_pin &&& BTN_MASK

/-- Method `ProtoCounter::sampleButtons`, given the value read from `BTN_PIN`. -/
def sampleButtons (s : State) (btn_pin : Nat) : State :=
  let pb := readButtons btn_pin
  let s :=
    if pb = 0 then
      if s.button &&& PB_PRESS ≠ 0 then
        if s.button &&& (PB_ACK ||| PB_LONG) = (PB_ACK ||| PB_LONG) then
          { s with button := s.button &&& not8 (PB_ACK ||| PB_PRESS) }
        else
          { s with button := s.button &&& not8 (PB_ACK ||| PB_LONGPRESS) }
      else s
    else
      if s.button &&& PB_PRESS = 0 then
        { s with button := pb ||| PB_PRESS, pb_delay_timer := BTN_LONGPRESS_DELAY }
      else if s.button &&& (BTN_MASK ||| PB_LONG) = pb then
        if s.pb_delay_timer = 0 then { s with button := pb ||| PB_LONGPRESS } else s
      else if pb = BOTH_BTNS ∧ s.button &&& PB_LONG = 0 then
        { s with button := BOTH_PRESSED }
      else s
  if s.pb_delay_timer ≠ 0 then { s with pb_delay_timer := s.pb_delay_timer - 1 } else s

/-- Method `ProtoCounter::getButton`. -/
def getButton (s : State) : Nat := s.button

/-- Method `ProtoCounter::buttonAck`: set the acknowledge flag. -/
def buttonAck (s : State) : State :=
  { s with button := s.button ||| PB_ACK }

/-- What the host and the sampler do to the button state: a sample of the
button pins, or an acknowledge. -/
inductive BtnEvent where
  | sample (btn_pin : Nat)
  | ack
  deriving DecidableEq

/-- One event applied to the state. -/
def stepButtons (s : State) : BtnEvent → State
  | .sample btn_pin => sampleButtons s btn_pin
  | .ack => buttonAck s

/-- A sequence of events applied in order. -/
def runButtons (s : State) (es : List BtnEvent) : State :=
  es.foldl stepButtons s

/-- The number of samples in a sequence of events. -/
def countSamples : List BtnEvent → Nat
  | [] => 0
  | .sample _ :: es => countSamples es + 1
  | .ack :: es => countSamples es

/-- Every sample of the sequence reads `pb` from the buttons. -/
def allSamplesRead (pb : Nat) : List BtnEvent → Prop
  | [] => True
  | .sample btn_pin :: es => readButtons btn_pin = pb ∧ allSamplesRead pb es
  | .ack :: es => allSamplesRead pb es

/-- The button byte after `sampleButtons`, as a function of the old byte, the
sample `pb` and whether the delay timer has run out (derived from
`sampleButtons`, see `button_sampleButtons`). -/
def nextButton (b pb : Nat) (elapsed : Bool) : Nat :=
  if pb = 0 then
    if b &&& PB_PRESS ≠ 0 then
      if b &&& (PB_ACK ||| PB_LONG) = (PB_ACK ||| PB_LONG) then
        b &&& not8 (PB_ACK ||| PB_PRESS)
      else b &&& not8 (PB_ACK ||| PB_LONGPRESS)
    else b
  else
    if b &&& PB_PRESS = 0 then pb ||| PB_PRESS
    else if b &&& (BTN_MASK ||| PB_LONG) = pb then
      if elapsed then pb ||| PB_LONGPRESS else b
    else if pb = BOTH_BTNS ∧ b &&& PB_LONG = 0 then BOTH_PRESSED
    else b

/-- The button state and delay timer after `k` samples that all show button 1
alone, from a state with the press flag clear (the invariant behind C5). -/
def heldInv (k : Nat) (s : State) : Prop :=
  if k = 0 then s.button &&& PB_PRESS = 0
  else if k ≤ BTN_LONGPRESS_DELAY then
    (s.button = BTN1_PRESSED ∨ s.button = BTN1_PRESSED ||| PB_ACK)
      ∧ s.pb_delay_timer = BTN_LONGPRESS_DELAY - k
  else
    (s.button = BTN1_LONGPRESSED ∨ s.button = BTN1_LONGPRESSED ||| PB_ACK)
      ∧ s.pb_delay_timer = 0

/-! ## External shift registers -/

/-- Method `ProtoCounter::readShiftRegister`. -/
def readShiftRegister (s : State) : Nat := s.sh_reg_in_data

/-- Method `ProtoCounter::writeShiftRegister`. -/
def writeShiftRegister (s : State) (out_data : Nat) : State :=
  { s with sh_reg_out_data := out_data }

/-- The output loop of `updateShiftRegister`, `n` passes left: the level driven
on OUT before each clock pulse is the MSB of `sr_data`, which is then shifted
left within its 8-bit type (`sr_in_data_t` when both widths are 8). -/
def shiftOut (sr_data : Nat) : Nat → List Bool
  | 0 => []
  | n + 1 =>
    decide (sr_data &&& SH_REG_MSB_MASK ≠ 0) :: shiftOut ((sr_data <<< 1) % 256) n

/-- The input loop of `updateShiftRegister` over the levels sampled on IN, one
per pass: shift `sr_data` left, then set its LSB when the line is high. -/
def shiftIn (sr_data : Nat) : List Bool → Nat
  | [] => sr_data
  | level :: levels =>
    shiftIn (if level then ((sr_data <<< 1) % 256) ||| 1 else (sr_data <<< 1) % 256) levels

/-- Method `ProtoCounter::updateShiftRegister` for `SH_REG_OUT_BITCOUNT = 8` and
`SH_REG_IN_BITCOUNT = 8`: `line k` is the level read from the IN pin in pass
`k` of the input loop; the result is the new state and the levels driven on
the OUT pin, in order. -/
def updateShiftRegister (s : State) (line : Nat → Bool) : State × List Bool :=
  let driven := shiftOut s.sh_reg_out_data SH_REG_OUT_BITCOUNT
  let sr_data := shiftIn 0 ((List.range SH_REG_IN_BITCOUNT).map line)
  ({ s with sh_reg_in_data := sr_data }, driven)

/-! ## Analog knob -/

/-- The value `rc = TCNT0 - start_time - 1` of `updateAnalog`, as a `uint8_t`. -/
def rawCapture (s : State) (tcnt0 : Nat) : Nat :=
  (((tcnt0 : Int) - (s.start_time : Int) - 1) % 256).toNat

/-- The scaling of `rc` in the detent branch of `updateAnalog`, in the 16-bit
variable `ana`. -/
def scaleCapture (resolution rc : Nat) : Nat :=
  let ana := rc
  if resolution = ANALOG_129_DETENT_STEPS then (ana + (rc >>> 1)) % 65536
  else if resolution = ANALOG_65_DETENT_STEPS then (ana + 65536 - (rc >>> 2)) % 65536
  else if resolution = ANALOG_43_DETENT_STEPS then (ana + 65536 - (rc >>> 1)) % 65536
  else if resolution = ANALOG_33_DETENT_STEPS then
    ((((ana + rc) % 65536) + rc) % 65536) >>> 3
  else if resolution = ANALOG_22_DETENT_STEPS then ana >>> 2
  else ana

/-- Method `ProtoCounter::updateAnalog` (the comparator interrupt), given the value
read from `TCNT0`. -/
def updateAnalog (s : State) (tcnt0 : Nat) : State :=
  let rc := rawCapture s tcnt0
  let resolution := s.analog_resolution
  if resolution ≥ ANALOG_OFF then { s with analog := 0 }
  else if resolution = ANALOG_MAX_RESOLUTION then { s with analog := rc }
  else
    let ana := scaleCapture resolution rc
    let ana := (ana + (s.analog + 2)) % 65536
    { s with analog := (ana >>> 2) % 256 }

/-- Method `ProtoCounter::getAnalog`. -/
def getAnalog (s : State) : Nat := s.analog

/-- Method `ProtoCounter::setAnalogResolution`. -/
def setAnalogResolution (s : State) (ana_res : Nat) : State :=
  if ana_res ≤ ANALOG_OFF then { s with analog_resolution := ana_res } else s

/-- Method `ProtoCounter::setDimming`. -/
def setDimming (s : State) (dim : Nat) : State :=
  { s with dimming := dim }

/-- Method `ProtoCounter::writeHex`: two hex digits and a trailing 'h'. The
macro `swap` exchanges the two nibbles of a byte. -/
def writeHex (s : State) (val : Nat) : State :=
  let nibble := (((val <<< 4) ||| (val >>> 4)) % 256) &&& 0x0F
  let nibble := if nibble > 9 then nibble + (65 - 10) else nibble + 48
  let s := writeChar s nibble 2
  let nibble := val &&& 0x0F
  let nibble := if nibble > 9 then nibble + (65 - 10) else nibble + 48
  let s := writeChar s nibble 1
  writeChar s 104 0

/-! ## The tick -/

/-- The hardware values one call of `update()` reads: the timer counter
`TCNT0`, the levels on the shift-register IN line (one per pass of the input
loop), and the button pins `BTN_PIN` (read only when the buttons are sampled). -/
structure TickInput where
  tcnt0 : Nat
  line : Nat → Bool
  btn_pin : Nat

/-- The table `col_bit` of `update()`: the anode mask of each digit position. -/
def col_bit : List Nat := [1 <<< ANODE3, 1 <<< ANODE2, 1 <<< ANODE1]

/-- The mask `(1<<ANODE1)|(1<<ANODE2)|(1<<ANODE3)` of all anode lines. -/
def ANODE_MASK : Nat := (1 <<< ANODE1) ||| (1 <<< ANODE2) ||| (1 <<< ANODE3)

/-- Method `ProtoCounter::update`, the periodic tick. The comparator control
register and the data direction registers are not part of the state: arming
the analog measurement shows in `start_time`. Of the port writes inside
`updateShiftRegister` and `sampleButtons` the state keeps the level each line
is left at (OUT, CLK and LD high; the common button line high). -/
def update (s : State) (inp : TickInput) : State :=
  -- all anodes off, all led segments off
  let s : State := { s with portb := s.portb ||| ANODE_MASK, portd := 0x7F }
  -- arm the analog measurement
  let s : State := if s.current_pos = 0 then { s with start_time := inp.tcnt0 % 256 } else s
  -- external shift registers
  let s : State := (updateShiftRegister s inp.line).1
  let s : State := { s with portb := s.portb ||| (1 <<< SH_REG_OUT_BIT) ||| (1 <<< SH_REG_CLK_BIT)
                              ||| (1 <<< SH_REG_LD_BIT) }
  -- push buttons
  let s : State := { s with pb_timer := (s.pb_timer + 255) % 256 }
  let s : State :=
    if s.pb_timer = 0 then
      let s : State := sampleButtons { s with pb_timer := BTN_SAMPLE_INTERVAL } inp.btn_pin
      { s with portb := s.portb ||| (1 <<< BTN_COM) }
    else s
  -- next display position
  let s : State :=
    if s.current_pos = 0 then { s with current_pos := (MAX_DIGITS + 1 + s.dimming) % 256 }
    else s
  let s : State := { s with current_pos := (s.current_pos + 255) % 256 }
  if s.current_pos < MAX_DIGITS then
    { s with portb := s.portb &&& not8 (col_bit.getD s.current_pos 0),
             portd := s.display s.current_pos }
  else s

/-- A run of ticks, one input per call of `update()`. -/
def runUpdate (s : State) (inps : List TickInput) : State :=
  inps.foldl update s

/-- The anode line of a digit position: bit `ANODE3`, `ANODE2`, `ANODE1` of
`PORTB` for position 0, 1, 2. -/
def anodeBit (pos : Nat) : Nat := [ANODE3, ANODE2, ANODE1].getD pos 0

/-- The digit driver of position `pos` is enabled: its anode line is low. -/
def digitDriverOn (s : State) (pos : Nat) : Prop :=
  s.portb.testBit (anodeBit pos) = false

/-- No digit driver is enabled: the three anode lines are high. -/
def allDigitsDark (s : State) : Prop :=
  ∀ pos < MAX_DIGITS, ¬ digitDriverOn s pos

instance (s : State) (pos : Nat) : Decidable (digitDriverOn s pos) :=
  inferInstanceAs (Decidable (s.portb.testBit (anodeBit pos) = false))

instance (s : State) : Decidable (allDigitsDark s) :=
  inferInstanceAs (Decidable (∀ pos < MAX_DIGITS, ¬ digitDriverOn s pos))

/-- The number of ticks of a run after which no digit driver is enabled. -/
def countDark (s : State) : List TickInput → Nat
  | [] => 0
  | inp :: inps =>
    (if allDigitsDark (update s inp) then 1 else 0) + countDark (update s inp) inps

/-- The slot counter as `update()` sees it after the re-seed: `current_pos`,
or `MAX_DIGITS + 1 + dimming` when `current_pos` is 0. -/
def slotsLeft (s : State) : Nat :=
  if s.current_pos = 0 then MAX_DIGITS + 1 + s.dimming else s.current_pos

/-- Method `ProtoCounter::init`. -/
def init (s : State) : State :=
  let s := clearDisplay s
  { s with button := 0, dimming := DIMMING, decimal_places := DECIMAL_PLACES,
           portb := (s.portb ||| ANODE_MASK) &&& not8 (1 <<< SH_REG_LD_BIT),
           portd := 0x7F, sh_reg_in_data := 0, sh_reg_out_data := 0,
           analog_resolution := ANALOG_MAX_RESOLUTION, analog := 0 }

/-- The calls that change the state: the host-facing methods, the tick and
the comparator interrupt. -/
inductive Op where
  | init
  | clearDisplay
  | setDisplay (led_pattern pos : Nat)
  | writeChar (ascii_code pos : Nat)
  | writeString_P (st : List Nat)
  | writeInt (val : Int)
  | writeHex (val : Nat)
  | setDimming (dim : Nat)
  | setDecimalPlaces (decimals : Nat)
  | setAnalogResolution (ana_res : Nat)
  | buttonAck
  | writeShiftRegister (out_data : Nat)
  | update (inp : TickInput)
  | updateAnalog (tcnt0 : Nat)

/-- One call applied to the state. -/
def applyOp (s : State) : Op → State
  | .init => init s
  | .clearDisplay => clearDisplay s
  | .setDisplay led_pattern pos => setDisplay s led_pattern pos
  | .writeChar ascii_code pos => writeChar s ascii_code pos
  | .writeString_P st => writeString_P s st
  | .writeInt val => writeInt s val
  | .writeHex val => writeHex s val
  | .setDimming dim => setDimming s dim
  | .setDecimalPlaces decimals => setDecimalPlaces s decimals
  | .setAnalogResolution ana_res => setAnalogResolution s ana_res
  | .buttonAck => buttonAck s
  | .writeShiftRegister out_data => writeShiftRegister s out_data
  | .update inp => update s inp
  | .updateAnalog tcnt0 => updateAnalog s tcnt0

/-- A sequence of calls applied in order. -/
def runOps (s : State) (ops : List Op) : State :=
  ops.foldl applyOp s

/-- A sequence of button samples applied in order, one `BTN_PIN` reading each. -/
def runSamples (s : State) (pins : List Nat) : State :=
  pins.foldl sampleButtons s

/-- The number of samples at the end of a sequence that all show at least one
button active. -/
def heldRun (pins : List Nat) : Nat :=
  (pins.reverse.takeWhile (fun x => decide (readButtons x ≠ 0))).length

/-- The tick input used in the examples: timer at 77, IN line low, no button. -/
def idleInput : TickInput := { tcnt0 := 77, line := fun _ => false, btn_pin := 0xFF }

/-- The state after `n` captures that all read `tcnt0` from the timer: `n` runs
of `updateAnalog` with the start time left as it is, so that every capture
has the same raw value. -/
def captureN (s : State) (tcnt0 : Nat) (n : Nat) : State :=
  (fun u => updateAnalog u tcnt0)^[n] s

/-! # Theorems -/

/-! ## Basic facts about the display buffer -/

theorem not8_not8 (x : Nat) (h : x < 256) : not8 (not8 x) = x := by
  unfold not8; omega

theorem char_gen_lt (i : Nat) : char_gen.getD i 0 < 256 := by
  by_cases h : i < 64
  · revert i; decide
  · rw [List.getD_eq_default]
    · decide
    · simp only [char_gen, List.length_cons, List.length_nil]; omega

theorem glyph_lt (c : Nat) : glyph c < 256 := char_gen_lt _

theorem glyph_blank : glyph 32 = 0 := by decide

theorem glyph_zero : glyph 0 = glyph 48 := by decide

theorem glyph_digit (k : Nat) (hk : k ≤ 9) : glyph k = glyph (48 + k) := by
  have h1 : charIndex k = k + 16 := by simp [charIndex, hk]
  have h2 : charIndex (48 + k) = k + 16 := by
    unfold charIndex
    rw [if_neg (by omega), if_neg (by omega), if_neg (by omega), if_pos (by omega)]
    omega
  unfold glyph; rw [h1, h2]

theorem decimal_places_writeChar (s : State) (c pos : Nat) :
    (writeChar s c pos).decimal_places = s.decimal_places := by
  unfold writeChar setDisplay; split <;> rfl

theorem getDisplay_writeChar (s : State) (c pos i : Nat) :
    getDisplay (writeChar s c pos) i =
      if pos < MAX_DIGITS ∧ i = pos then glyph c else getDisplay s i := by
  unfold writeChar setDisplay getDisplay
  by_cases hp : pos ≥ MAX_DIGITS
  · rw [if_pos hp, if_neg (by omega)]
  · rw [if_neg hp]
    by_cases hi : i = pos
    · rw [if_pos ⟨by omega, hi⟩]
      simp only [hi, if_true]
      exact not8_not8 _ (glyph_lt c)
    · rw [if_neg (by tauto)]
      simp only [hi, if_false]

/-! ## The decimal renderer -/

set_option maxRecDepth 100000 in
theorem convertDigits_eq :
    ∀ n < 1000, convertDigits n = (n % 10, n / 10 % 10, n / 100) := by
  decide

theorem toU16_natCast (n : Nat) (h : n < 65536) : toU16 (n : Int) = n := by
  unfold toU16
  rw [Int.emod_eq_of_lt (by omega) (by omega)]
  simp

theorem getDisplay_writeDigits_two (s : State) (dg : Nat × Nat × Nat) (d p : Nat) :
    getDisplay (writeDigits s dg 2 d) p =
      (if p = 0 then
        glyph (if (if d ≠ 32 ∨ 1 = s.decimal_places ∨ digitAt dg 1 > 0
                    then digitAt dg 1 else d) ≠ 32
                  ∨ 0 = s.decimal_places ∨ digitAt dg 0 > 0
               then digitAt dg 0
               else (if d ≠ 32 ∨ 1 = s.decimal_places ∨ digitAt dg 1 > 0
                    then digitAt dg 1 else d))
       else if p = 1 then
        glyph (if d ≠ 32 ∨ 1 = s.decimal_places ∨ digitAt dg 1 > 0
               then digitAt dg 1 else d)
       else getDisplay s p) := by
  by_cases h0 : p = 0
  · simp [h0, writeDigits, decimal_places_writeChar, getDisplay_writeChar, MAX_DIGITS]
  · by_cases h1 : p = 1
    · simp [h1, writeDigits, decimal_places_writeChar, getDisplay_writeChar, MAX_DIGITS]
    · simp [h0, h1, writeDigits, decimal_places_writeChar, getDisplay_writeChar, MAX_DIGITS]

theorem getDisplay_writeDigits_three (s : State) (dg : Nat × Nat × Nat) (p : Nat) :
    getDisplay (writeDigits s dg 3 32) p =
      getDisplay (writeDigits
        (writeChar s (if 2 = s.decimal_places ∨ digitAt dg 2 > 0
                      then digitAt dg 2 else 32) 2) dg 2
        (if 2 = s.decimal_places ∨ digitAt dg 2 > 0 then digitAt dg 2 else 32)) p := by
  simp [writeDigits]

theorem shown_glyphs (a b c d p : Nat) (ha : a ≤ 9) (hb : b ≤ 9) (hc : c ≤ 9)
    (hd : d < 3) (hp : p < 3) :
    (if p = 0 then
        glyph (if (if (if 2 = d ∨ c > 0 then c else 32) ≠ 32 ∨ 1 = d ∨ b > 0
                    then b else (if 2 = d ∨ c > 0 then c else 32)) ≠ 32
                  ∨ 0 = d ∨ a > 0
               then a
               else (if (if 2 = d ∨ c > 0 then c else 32) ≠ 32 ∨ 1 = d ∨ b > 0
                    then b else (if 2 = d ∨ c > 0 then c else 32)))
       else if p = 1 then
        glyph (if (if 2 = d ∨ c > 0 then c else 32) ≠ 32 ∨ 1 = d ∨ b > 0
               then b else (if 2 = d ∨ c > 0 then c else 32))
       else glyph (if 2 = d ∨ c > 0 then c else 32)) =
    (if p ≤ max d (if c ≠ 0 then 2 else if b ≠ 0 then 1 else 0)
     then glyph (48 + (if p = 0 then a else if p = 1 then b else c)) else 0) := by
  have ga := glyph_digit a ha
  have gb := glyph_digit b hb
  have gc := glyph_digit c hc
  have g00 := glyph_zero
  have a32 : a ≠ 32 := by omega
  have b32 : b ≠ 32 := by omega
  have c32 : c ≠ 32 := by omega
  by_cases h2 : c = 0 <;> by_cases h1 : b = 0 <;> by_cases h0 : a = 0 <;>
  interval_cases p <;> interval_cases d <;>
  simp [h0, h1, h2, a32, b32, c32, glyph_blank, g00, ← ga, ← gb, ← gc, Nat.pos_iff_ne_zero]

theorem writeInt_natCast_eq (s : State) (n : Nat) (hn : n < 1000) :
    writeInt s (n : Int) = writeDigits s (n % 10, n / 10 % 10, n / 100) 3 32 := by
  have hU : toU16 (n : Int) = n := toU16_natCast n (by omega)
  have hC := convertDigits_eq n hn
  unfold writeInt
  rw [if_neg (by simp [MAX_DECIMAL]; omega), if_neg (by simp [MIN_DECIMAL]; omega)]
  have : ¬ ((n : Int) < 0) := by omega
  simp [this, hU, hC, MAX_DIGITS]

theorem getDisplay_writeInt_natCast (s : State) (n p : Nat)
    (hd : s.decimal_places < 3) (hn : n < 1000) (hp : p < 3) :
    getDisplay (writeInt s (n : Int)) p =
      (if p ≤ max s.decimal_places (msdIndex n)
       then glyph (48 + n / 10 ^ p % 10) else 0) := by
  rw [writeInt_natCast_eq s n hn, getDisplay_writeDigits_three, getDisplay_writeDigits_two,
    getDisplay_writeChar, decimal_places_writeChar]
  have key := shown_glyphs (n % 10) (n / 10 % 10) (n / 100) s.decimal_places p (by omega)
    (by omega) (by omega) hd hp
  have e2 : n / 100 % 10 = n / 100 := by omega
  simp only [msdIndex, e2]
  interval_cases p
  · simpa [digitAt, MAX_DIGITS] using key
  · simpa [digitAt, MAX_DIGITS] using key
  · simpa [digitAt, MAX_DIGITS, e2] using key

theorem writeInt_neg_eq (s : State) (m : Nat) (h1 : 1 ≤ m) (h2 : m ≤ 99) :
    writeInt s (-(m : Int)) =
      writeDigits (writeChar s 45 2) (m % 10, m / 10 % 10, m / 100) 2 32 := by
  have hU : toU16 (m : Int) = m := toU16_natCast m (by omega)
  have hC := convertDigits_eq m (by omega)
  unfold writeInt
  rw [if_neg (by simp [MAX_DECIMAL]; omega), if_neg (by simp [MIN_DECIMAL]; omega)]
  have : (-(m : Int) < 0) := by omega
  simp [this, hU, hC, MAX_DIGITS]

theorem getDisplay_writeInt_neg (s : State) (m p : Nat) (h1 : 1 ≤ m) (h2 : m ≤ 99) :
    getDisplay (writeInt s (-(m : Int))) p =
      (if p = 0 then glyph (48 + m % 10)
       else if p = 1 then
         (if m / 10 ≠ 0 ∨ s.decimal_places = 1 then glyph (48 + m / 10) else 0)
       else if p = 2 then glyph 45 else getDisplay s p) := by
  rw [writeInt_neg_eq s m h1 h2, getDisplay_writeDigits_two, decimal_places_writeChar,
    getDisplay_writeChar]
  have ga := glyph_digit (m % 10) (by omega)
  have gb := glyph_digit (m / 10) (by omega)
  have e : m / 10 % 10 = m / 10 := by omega
  have b32 : m / 10 ≠ 32 := by omega
  have hab : m / 10 = 0 → m % 10 ≠ 0 := by omega
  by_cases hb : m / 10 = 0 <;> by_cases hd1 : s.decimal_places = 1 <;>
    by_cases hd0 : s.decimal_places = 0 <;>
    simp [digitAt, e, hb, hd1, hd0, b32, MAX_DIGITS, glyph_blank, glyph_zero, ← ga, ← gb,
      Nat.pos_iff_ne_zero, hab, eq_comm]

theorem getDisplay_writeString_P3 (s : State) (c2 c1 c0 p : Nat)
    (h2 : c2 ≠ 0) (h1 : c1 ≠ 0) (h0 : c0 ≠ 0) :
    getDisplay (writeString_P s [c2, c1, c0]) p =
      (if p = 0 then glyph c0 else if p = 1 then glyph c1
       else if p = 2 then glyph c2 else getDisplay s p) := by
  simp only [writeString_P, MAX_DIGITS, writeString_P_loop, if_neg h2, if_neg h1, if_neg h0,
    getDisplay_writeChar]
  by_cases e0 : p = 0
  · simp [e0]
  · by_cases e1 : p = 1
    · simp [e1]
    · by_cases e2 : p = 2
      · simp [e2]
      · simp [e0, e1, e2]

/-! ## Claims about the decimal renderer -/

/-- C1: for `v` in `0..999`, decimal places `d` in `{0,1,2}` and any prior state,
after `setDecimalPlaces(d)` and `writeInt(v)` position `p` of the buffer reads
the glyph `writeChar` gives for the ASCII digit `(v / 10^p) % 10` when
`p ≤ max d (index of the most significant non-zero digit)`, and blank
otherwise; the conversion loop yields the digits `v % 10`, `v / 10 % 10`,
`v / 100`. -/
theorem C1_writeInt_nonneg (s : State) (d : Nat) (v : Int) (p : Nat)
    (hd : d < 3) (hv0 : 0 ≤ v) (hv : v ≤ 999) (hp : p < 3) :
    getDisplay (writeInt (setDecimalPlaces s d) v) p =
        (if p ≤ max d (msdIndex v.toNat)
         then getDisplay (writeChar s (48 + v.toNat / 10 ^ p % 10) p) p else 0)
      ∧ convertDigits (toU16 v) = (v.toNat % 10, v.toNat / 10 % 10, v.toNat / 100) := by
  obtain ⟨n, rfl⟩ := Int.eq_ofNat_of_zero_le hv0
  have hn : n < 1000 := by omega
  have hdp : (setDecimalPlaces s d).decimal_places = d := by
    simp [setDecimalPlaces, MAX_DIGITS, hd]
  constructor
  · rw [getDisplay_writeInt_natCast _ n p (by omega) hn hp, hdp, getDisplay_writeChar]
    simp [MAX_DIGITS, hp]
  · rw [toU16_natCast n (by omega), convertDigits_eq n hn]
    simp

/-- Witness of C1 at `v = 7`, `d = 1`, position 1 (a forced leading zero). -/
theorem C1_writeInt_nonneg_witness :
    (1 < 3 ∧ (0 : Int) ≤ 7 ∧ (7 : Int) ≤ 999 ∧ 1 < 3) ∧
    (getDisplay (writeInt (setDecimalPlaces State.zero 1) 7) 1 =
        (if 1 ≤ max 1 (msdIndex (7 : Int).toNat)
         then getDisplay (writeChar State.zero (48 + (7 : Int).toNat / 10 ^ 1 % 10) 1) 1
         else 0)
      ∧ convertDigits (toU16 7)
          = ((7 : Int).toNat % 10, (7 : Int).toNat / 10 % 10, (7 : Int).toNat / 100)) :=
  ⟨by decide, C1_writeInt_nonneg State.zero 1 7 1 (by decide) (by decide) (by decide)
    (by decide)⟩

/-- C2: every value above 999 leaves the buffer equal to the overflow marker
(glyphs of '0', 'F', 'L' at positions 2, 1, 0) and every value below -99 equal
to the underflow marker (glyphs of 'V', 'F', 'L'), whatever the value, the
decimal-places setting and the previous buffer are. -/
theorem C2_writeInt_out_of_range (s : State) (v : Int) :
    (999 < v →
      getDisplay (writeInt s v) 2 = glyph 48 ∧ getDisplay (writeInt s v) 1 = glyph 70
        ∧ getDisplay (writeInt s v) 0 = glyph 76) ∧
    (v < -99 →
      getDisplay (writeInt s v) 2 = glyph 86 ∧ getDisplay (writeInt s v) 1 = glyph 70
        ∧ getDisplay (writeInt s v) 0 = glyph 76) := by
  constructor
  · intro h
    have e : writeInt s v = writeString_P s [48, 70, 76] := by
      unfold writeInt; rw [if_pos (by simpa [MAX_DECIMAL] using h)]
    simp [e, getDisplay_writeString_P3]
  · intro h
    have e : writeInt s v = writeString_P s [86, 70, 76] := by
      unfold writeInt
      rw [if_neg (by simp [MAX_DECIMAL]; omega), if_pos (by simpa [MIN_DECIMAL] using h)]
    simp [e, getDisplay_writeString_P3]

/-- Witness of C2 at `v = 1000` and at `v = -32768`. -/
theorem C2_writeInt_out_of_range_witness :
    ((999 : Int) < 1000 ∧ (-32768 : Int) < -99) ∧
    (getDisplay (writeInt State.zero 1000) 2 = glyph 48 ∧
      getDisplay (writeInt State.zero 1000) 1 = glyph 70 ∧
      getDisplay (writeInt State.zero 1000) 0 = glyph 76) ∧
    (getDisplay (writeInt State.zero (-32768)) 2 = glyph 86 ∧
      getDisplay (writeInt State.zero (-32768)) 1 = glyph 70 ∧
      getDisplay (writeInt State.zero (-32768)) 0 = glyph 76) :=
  ⟨by decide, (C2_writeInt_out_of_range State.zero 1000).1 (by decide),
    (C2_writeInt_out_of_range State.zero (-32768)).2 (by decide)⟩

/-- C3: for `v` in `-99..-1` and any decimal-places setting, `writeInt(v)` shows
the minus sign at position 2, the glyph of `|v| % 10` at position 0, and at
position 1 the glyph of `|v| / 10` when that digit is non-zero or the
decimal-places setting is 1, blank otherwise. -/
theorem C3_writeInt_negative (s : State) (v : Int) (hlo : -99 ≤ v) (hhi : v ≤ -1) :
    getDisplay (writeInt s v) 2 = glyph 45 ∧
    getDisplay (writeInt s v) 0 = glyph (48 + v.natAbs % 10) ∧
    getDisplay (writeInt s v) 1 =
      (if v.natAbs / 10 ≠ 0 ∨ s.decimal_places = 1
       then glyph (48 + v.natAbs / 10) else 0) := by
  obtain ⟨m, hm⟩ : ∃ m : Nat, v = -(m : Int) := ⟨v.natAbs, by omega⟩
  subst hm
  have h1 : 1 ≤ m := by omega
  have h2 : m ≤ 99 := by omega
  simp [getDisplay_writeInt_neg s m _ h1 h2]

/-- Witness of C3 at `v = -5` with two decimal places. -/
theorem C3_writeInt_negative_witness :
    ((-99 : Int) ≤ -5 ∧ (-5 : Int) ≤ -1) ∧
    getDisplay (writeInt { State.zero with decimal_places := 2 } (-5)) 2 = glyph 45 ∧
    getDisplay (writeInt { State.zero with decimal_places := 2 } (-5)) 0
      = glyph (48 + (-5 : Int).natAbs % 10) ∧
    getDisplay (writeInt { State.zero with decimal_places := 2 } (-5)) 1 =
      (if (-5 : Int).natAbs / 10 ≠ 0
          ∨ ({ State.zero with decimal_places := 2 } : State).decimal_places = 1
       then glyph (48 + (-5 : Int).natAbs / 10) else 0) :=
  ⟨by decide, C3_writeInt_negative { State.zero with decimal_places := 2 } (-5) (by decide)
    (by decide)⟩

theorem glyph_digit_ne_blank : ∀ k < 10, glyph (48 + k) ≠ 0 := by decide

/-- C4 as stated fails: with two decimal places and `v = -5`, position 2 shows
the minus sign and not the digit `(5 / 100) % 10 = 0`. -/
theorem C4_counterexample :
    getDisplay (writeInt (setDecimalPlaces State.zero 2) (-5)) 2 = glyph 45 ∧
    getDisplay (writeInt (setDecimalPlaces State.zero 2) (-5)) 2
      ≠ glyph (48 + (-5 : Int).natAbs / 10 ^ 2 % 10) := by
  decide

/-- C4, amended: for `v` in `-99..999` and a decimal-places setting `d` in
`{0,1,2}`, position `d` shows the glyph of the digit `(|v| / 10^d) % 10`, never
a blank, whenever `v ≥ 0` or `d ≤ 1`; for negative `v` and `d = 2` position 2
holds the minus sign. -/
theorem C4_anchor_digit (s : State) (v : Int)
    (hd : s.decimal_places < 3) (hlo : -99 ≤ v) (hhi : v ≤ 999) :
    (0 ≤ v ∨ s.decimal_places ≤ 1 →
      getDisplay (writeInt s v) s.decimal_places
          = glyph (48 + v.natAbs / 10 ^ s.decimal_places % 10)
        ∧ getDisplay (writeInt s v) s.decimal_places ≠ 0) ∧
    (v < 0 ∧ s.decimal_places = 2 →
      getDisplay (writeInt s v) s.decimal_places = glyph 45) := by
  rcases le_or_lt 0 v with h0 | h0
  · obtain ⟨n, rfl⟩ := Int.eq_ofNat_of_zero_le h0
    have hn : n < 1000 := by omega
    have e := getDisplay_writeInt_natCast s n s.decimal_places hd hn hd
    rw [if_pos (le_max_left _ _)] at e
    refine ⟨fun _ => ⟨by simpa using e, ?_⟩, fun h => by omega⟩
    rw [e]
    exact glyph_digit_ne_blank _ (Nat.mod_lt _ (by norm_num))
  · obtain ⟨m, hm⟩ : ∃ m : Nat, v = -(m : Int) := ⟨v.natAbs, by omega⟩
    subst hm
    have h1 : 1 ≤ m := by omega
    have h2 : m ≤ 99 := by omega
    have e := getDisplay_writeInt_neg s m s.decimal_places h1 h2
    constructor
    · intro h
      have hd1 : s.decimal_places ≤ 1 := by omega
      have key : getDisplay (writeInt s (-(m : Int))) s.decimal_places
          = glyph (48 + m / 10 ^ s.decimal_places % 10) := by
        rw [e]
        rcases Nat.le_one_iff_eq_zero_or_eq_one.mp hd1 with h | h
        · simp [h]
        · have : m / 10 % 10 = m / 10 := by omega
          simp [h, this]
      refine ⟨by simpa using key, ?_⟩
      rw [key]
      exact glyph_digit_ne_blank _ (Nat.mod_lt _ (by norm_num))
    · rintro ⟨_, h⟩
      rw [e]; simp [h]

/-- Witness of C4 (amended) at `v = -5` with one and with two decimal places. -/
theorem C4_anchor_digit_witness :
    (({ State.zero with decimal_places := 1 } : State).decimal_places < 3
      ∧ (-99 : Int) ≤ -5 ∧ (-5 : Int) ≤ 999) ∧
    ((0 : Int) ≤ -5 ∨ ({ State.zero with decimal_places := 1 } : State).decimal_places ≤ 1) ∧
    getDisplay (writeInt { State.zero with decimal_places := 1 } (-5))
        ({ State.zero with decimal_places := 1 } : State).decimal_places
      = glyph (48 + (-5 : Int).natAbs
          / 10 ^ ({ State.zero with decimal_places := 1 } : State).decimal_places % 10) ∧
    ((-5 : Int) < 0 ∧ ({ State.zero with decimal_places := 2 } : State).decimal_places = 2) ∧
    getDisplay (writeInt { State.zero with decimal_places := 2 } (-5))
        ({ State.zero with decimal_places := 2 } : State).decimal_places = glyph 45 :=
  ⟨by decide, by decide,
    ((C4_anchor_digit { State.zero with decimal_places := 1 } (-5) (by decide) (by decide)
      (by decide)).1 (by decide)).1,
    by decide,
    (C4_anchor_digit { State.zero with decimal_places := 2 } (-5) (by decide) (by decide)
      (by decide)).2 (by decide)⟩

/-! ## The button debouncer -/

theorem button_sampleButtons (s : State) (btn_pin : Nat) :
    (sampleButtons s btn_pin).button
      = nextButton s.button (readButtons btn_pin) (decide (s.pb_delay_timer = 0)) := by
  unfold sampleButtons nextButton
  simp only []
  split_ifs <;> simp_all

set_option maxRecDepth 100000 in
theorem readButtons_cases (btn_pin : Nat) :
    readButtons btn_pin = 0 ∨ readButtons btn_pin = BUTTON1
      ∨ readButtons btn_pin = BUTTON2 ∨ readButtons btn_pin = BOTH_BTNS := by
  have h : not8 btn_pin < 256 := by unfold not8; omega
  unfold readButtons
  generalize not8 btn_pin = x at h
  revert x
  decide

theorem pb_delay_timer_sampleButtons (s : State) (btn_pin : Nat) :
    (sampleButtons s btn_pin).pb_delay_timer =
      (if readButtons btn_pin ≠ 0 ∧ s.button &&& PB_PRESS = 0
       then BTN_LONGPRESS_DELAY - 1 else s.pb_delay_timer - 1) := by
  unfold sampleButtons
  simp only []
  split_ifs <;> simp_all [BTN_LONGPRESS_DELAY]

theorem heldInv_sample (k : Nat) (s : State) (btn_pin : Nat)
    (hpb : readButtons btn_pin = BUTTON1) (h : heldInv k s) :
    heldInv (k + 1) (sampleButtons s btn_pin) := by
  have hb := button_sampleButtons s btn_pin
  have ht := pb_delay_timer_sampleButtons s btn_pin
  rw [hpb] at hb ht
  unfold heldInv at h ⊢
  rw [if_neg (Nat.succ_ne_zero k)]
  by_cases h0 : k = 0
  · subst h0
    rw [if_pos rfl] at h
    rw [if_pos (by decide)]
    rw [hb, ht]
    simp [nextButton, h, BUTTON1, BTN1_PRESSED, BTN_LONGPRESS_DELAY, BTN1_BIT]
  · rw [if_neg h0] at h
    by_cases h1 : k ≤ BTN_LONGPRESS_DELAY
    · rw [if_pos h1] at h
      obtain ⟨hbtn, htm⟩ := h
      have hpress : ¬ (BUTTON1 ≠ 0 ∧ s.button &&& PB_PRESS = 0) := by
        rcases hbtn with e | e <;> rw [e] <;> decide
      rw [if_neg hpress] at ht
      by_cases h2 : k + 1 ≤ BTN_LONGPRESS_DELAY
      · rw [if_pos h2, hb, ht]
        have hne : decide (s.pb_delay_timer = 0) = false := by
          simp only [BTN_LONGPRESS_DELAY] at h2 htm
          simp only [decide_eq_false_iff_not]; omega
        rw [hne, htm]
        refine ⟨?_, by omega⟩
        rcases hbtn with e | e <;> rw [e] <;> decide
      · rw [if_neg h2, hb, ht]
        have he : decide (s.pb_delay_timer = 0) = true := by
          simp only [BTN_LONGPRESS_DELAY] at h1 h2 htm
          simp only [decide_eq_true_eq]; omega
        rw [he, htm]
        refine ⟨?_, by simp only [BTN_LONGPRESS_DELAY] at h1 h2 ⊢; omega⟩
        rcases hbtn with e | e <;> rw [e] <;> decide
    · rw [if_neg h1] at h
      obtain ⟨hbtn, htm⟩ := h
      have hpress : ¬ (BUTTON1 ≠ 0 ∧ s.button &&& PB_PRESS = 0) := by
        rcases hbtn with e | e <;> rw [e] <;> decide
      rw [if_neg hpress] at ht
      rw [if_neg (by omega), hb, ht, htm]
      refine ⟨?_, rfl⟩
      rcases hbtn with e | e <;> rw [e] <;> decide

theorem heldInv_ack (k : Nat) (s : State) (h : heldInv k s) : heldInv k (buttonAck s) := by
  unfold heldInv at h ⊢
  unfold buttonAck
  split_ifs at h ⊢
  · show (s.button ||| PB_ACK) &&& PB_PRESS = 0
    rw [Nat.and_comm, Nat.and_or_distrib_left, Nat.and_comm, h]; decide
  · refine ⟨?_, h.2⟩
    rcases h.1 with e | e <;> simp only [e] <;> decide
  · refine ⟨?_, h.2⟩
    rcases h.1 with e | e <;> simp only [e] <;> decide

theorem heldInv_run (s : State) (es : List BtnEvent)
    (h0 : s.button &&& PB_PRESS = 0) (hes : allSamplesRead BUTTON1 es) :
    heldInv (countSamples es) (runButtons s es) := by
  suffices H : ∀ (es : List BtnEvent) (k : Nat) (t : State), heldInv k t →
      allSamplesRead BUTTON1 es → heldInv (k + countSamples es) (runButtons t es) by
    have := H es 0 s (by simpa [heldInv] using h0) hes
    simpa using this
  intro es
  induction es with
  | nil => intro k t h _; simpa [countSamples, runButtons] using h
  | cons e es ih =>
    intro k t h hall
    cases e with
    | sample btn_pin =>
      have := ih (k + 1) (sampleButtons t btn_pin) (heldInv_sample k t btn_pin hall.1 h) hall.2
      simpa [countSamples, runButtons, stepButtons, Nat.add_assoc, Nat.add_comm 1] using this
    | ack =>
      have := ih k (buttonAck t) (heldInv_ack k t h) hall
      simpa [countSamples, runButtons, stepButtons] using this

theorem allSamplesRead_replicate (pb btn_pin : Nat) (h : readButtons btn_pin = pb) (n : Nat) :
    allSamplesRead pb (List.replicate n (BtnEvent.sample btn_pin)) := by
  induction n with
  | zero => trivial
  | succ n ih => exact ⟨h, ih⟩

theorem countSamples_replicate (btn_pin : Nat) (n : Nat) :
    countSamples (List.replicate n (BtnEvent.sample btn_pin)) = n := by
  induction n with
  | zero => rfl
  | succ n ih => simp [List.replicate, countSamples, ih]

theorem sampleButtons_longpressed (s : State) (btn_pin : Nat)
    (hpb : readButtons btn_pin = BUTTON1)
    (hbtn : s.button = BTN1_LONGPRESSED ∨ s.button = BTN1_LONGPRESSED ||| PB_ACK)
    (htm : s.pb_delay_timer = 0) : sampleButtons s btn_pin = s := by
  have c1 : ¬ (BUTTON1 = 0) := by decide
  have c2 : ¬ (s.button &&& PB_PRESS = 0) := by
    rcases hbtn with e | e <;> rw [e] <;> decide
  have c3 : ¬ (s.button &&& (BTN_MASK ||| PB_LONG) = BUTTON1) := by
    rcases hbtn with e | e <;> rw [e] <;> decide
  have c4 : ¬ (BUTTON1 = BOTH_BTNS) := by decide
  simp [sampleButtons, hpb, c1, c2, c3, c4, htm]

/-- C5: from a state with the press flag clear, under a run of samples that all
show button 1 alone (with any acknowledges in between), the state is
`BTN1_PRESSED` up to the ack flag after samples 1 to 50, the 51st sample sets
it to exactly `BTN1_LONGPRESSED`, and every later such sample leaves the state
unchanged. -/
theorem C5_long_press_once (s : State) (es : List BtnEvent)
    (h0 : s.button &&& PB_PRESS = 0) (hes : allSamplesRead BUTTON1 es) :
    (1 ≤ countSamples es ∧ countSamples es ≤ BTN_LONGPRESS_DELAY →
        (runButtons s es).button &&& not8 PB_ACK = BTN1_PRESSED
          ∧ (runButtons s es).button &&& PB_LONG = 0) ∧
    (countSamples es = BTN_LONGPRESS_DELAY →
        ∀ btn_pin, readButtons btn_pin = BUTTON1 →
          (sampleButtons (runButtons s es) btn_pin).button = BTN1_LONGPRESSED) ∧
    (BTN_LONGPRESS_DELAY + 1 ≤ countSamples es →
        (runButtons s es).button &&& not8 PB_ACK = BTN1_LONGPRESSED ∧
        ∀ btn_pin, readButtons btn_pin = BUTTON1 →
          sampleButtons (runButtons s es) btn_pin = runButtons s es) := by
  have inv := heldInv_run s es h0 hes
  refine ⟨?_, ?_, ?_⟩
  · rintro ⟨h1, h2⟩
    unfold heldInv at inv
    rw [if_neg (by omega), if_pos h2] at inv
    rcases inv.1 with e | e <;> rw [e] <;> decide
  · intro hk btn_pin hpb
    have hb := button_sampleButtons (runButtons s es) btn_pin
    unfold heldInv at inv
    rw [if_neg (by rw [hk]; decide), if_pos (by omega)] at inv
    have ht : (runButtons s es).pb_delay_timer = 0 := by rw [inv.2, hk, Nat.sub_self]
    rw [hb, hpb, ht]
    rcases inv.1 with e | e <;> rw [e] <;> decide
  · intro hk
    unfold heldInv at inv
    rw [if_neg (by omega), if_neg (by omega)] at inv
    refine ⟨?_, fun btn_pin hpb => sampleButtons_longpressed _ _ hpb inv.1 inv.2⟩
    rcases inv.1 with e | e <;> rw [e] <;> decide

/-- Witness of C5 at 51 samples of button 1 from the zero state. -/
theorem C5_long_press_once_witness :
    (State.zero.button &&& PB_PRESS = 0
      ∧ allSamplesRead BUTTON1 (List.replicate 51 (BtnEvent.sample 0xDF))) ∧
    (BTN_LONGPRESS_DELAY + 1 ≤ countSamples (List.replicate 51 (BtnEvent.sample 0xDF))) ∧
    (runButtons State.zero (List.replicate 51 (BtnEvent.sample 0xDF))).button &&& not8 PB_ACK
      = BTN1_LONGPRESSED :=
  ⟨⟨by decide, allSamplesRead_replicate BUTTON1 0xDF (by decide) 51⟩,
    by rw [countSamples_replicate]; decide,
    ((C5_long_press_once State.zero (List.replicate 51 (BtnEvent.sample 0xDF)) (by decide)
      (allSamplesRead_replicate BUTTON1 0xDF (by decide) 51)).2.2
      (by rw [countSamples_replicate]; decide)).1⟩

set_option maxRecDepth 100000 in
theorem nextButton_release_long :
    ∀ b < 256, ∀ z : Bool, b &&& PB_PRESS ≠ 0 →
      b &&& (PB_ACK ||| PB_LONG) = (PB_ACK ||| PB_LONG) →
        nextButton b 0 z = b &&& not8 (PB_ACK ||| PB_PRESS)
        ∧ nextButton b 0 z &&& (PB_LONG ||| BTN_MASK) = b &&& (PB_LONG ||| BTN_MASK)
        ∧ nextButton b 0 z &&& PB_LONG = PB_LONG := by
  decide

set_option maxRecDepth 100000 in
theorem nextButton_release_short :
    ∀ b < 256, ∀ z : Bool, b &&& PB_PRESS ≠ 0 →
      b &&& (PB_ACK ||| PB_LONG) ≠ (PB_ACK ||| PB_LONG) →
        nextButton b 0 z = b &&& not8 (PB_ACK ||| PB_LONGPRESS)
        ∧ nextButton b 0 z &&& BTN_MASK = b &&& BTN_MASK
        ∧ nextButton b 0 z &&& PB_LONG = 0 := by
  decide

set_option maxRecDepth 100000 in
theorem nextButton_release_idle :
    ∀ b < 256, ∀ z : Bool, b &&& PB_PRESS ≠ 0 →
      nextButton b 0 z &&& PB_PRESS = 0 ∧ nextButton b 0 z &&& PB_ACK = 0 ∧
      ∀ z2 : Bool, nextButton (nextButton b 0 z) 0 z2 = nextButton b 0 z := by
  decide

set_option maxRecDepth 100000 in
theorem nextButton_fresh :
    ∀ b < 256, ∀ z : Bool, ∀ pb ∈ [0, BUTTON1, BUTTON2, BOTH_BTNS],
      (nextButton b pb z ≠ b → nextButton b pb z &&& PB_ACK = 0) ∧
      (b &&& PB_ACK ≠ 0 → nextButton b pb z &&& PB_ACK = 0 →
        nextButton b pb z &&& not8 PB_ACK ≠ b &&& not8 PB_ACK) := by
  decide

set_option maxRecDepth 100000 in
theorem nextButton_both :
    ∀ b < 256, ∀ z : Bool, b &&& PB_LONG = 0 →
      ¬ (b &&& PB_PRESS ≠ 0 ∧ b &&& BTN_MASK = BOTH_BTNS) →
      nextButton b BOTH_BTNS z = BOTH_PRESSED := by
  decide

set_option maxRecDepth 100000 in
theorem nextButton_longpress_held :
    ∀ b < 256, ∀ z : Bool, ∀ pb ∈ [BUTTON1, BUTTON2, BOTH_BTNS],
      b &&& PB_PRESS ≠ 0 → b &&& PB_LONG ≠ 0 → nextButton b pb z = b := by
  decide

theorem readButtons_mem (btn_pin : Nat) :
    readButtons btn_pin ∈ [0, BUTTON1, BUTTON2, BOTH_BTNS] := by
  rcases readButtons_cases btn_pin with h | h | h | h <;> rw [h] <;> decide

/-- C6: a sample with no button active, from a pressed state `s` that is an
acknowledged long-press and from a pressed state `t` that is not: `s` loses
only press and ack (long flag and button bits kept), `t` loses ack, long and
press (button bits kept); the two results differ, both have the press flag
clear, and further samples with no button leave both unchanged. -/
theorem C6_release (s t : State) (btn_pin : Nat) (hpb : readButtons btn_pin = 0)
    (hs : s.button < 256) (ht : t.button < 256)
    (hsP : s.button &&& PB_PRESS ≠ 0) (htP : t.button &&& PB_PRESS ≠ 0)
    (hsAL : s.button &&& (PB_ACK ||| PB_LONG) = PB_ACK ||| PB_LONG)
    (htAL : t.button &&& (PB_ACK ||| PB_LONG) ≠ PB_ACK ||| PB_LONG) :
    ((sampleButtons s btn_pin).button = s.button &&& not8 (PB_ACK ||| PB_PRESS)
      ∧ (sampleButtons s btn_pin).button &&& (PB_LONG ||| BTN_MASK)
          = s.button &&& (PB_LONG ||| BTN_MASK)) ∧
    ((sampleButtons t btn_pin).button = t.button &&& not8 (PB_ACK ||| PB_LONGPRESS)
      ∧ (sampleButtons t btn_pin).button &&& BTN_MASK = t.button &&& BTN_MASK) ∧
    (sampleButtons s btn_pin).button ≠ (sampleButtons t btn_pin).button ∧
    ((sampleButtons s btn_pin).button &&& PB_PRESS = 0
      ∧ (sampleButtons t btn_pin).button &&& PB_PRESS = 0) ∧
    (∀ pin2, readButtons pin2 = 0 →
      (sampleButtons (sampleButtons s btn_pin) pin2).button = (sampleButtons s btn_pin).button
      ∧ (sampleButtons (sampleButtons t btn_pin) pin2).button
          = (sampleButtons t btn_pin).button) := by
  have es := button_sampleButtons s btn_pin
  have et := button_sampleButtons t btn_pin
  rw [hpb] at es et
  have a1 := nextButton_release_long s.button hs (decide (s.pb_delay_timer = 0)) hsP hsAL
  have a2 := nextButton_release_short t.button ht (decide (t.pb_delay_timer = 0)) htP htAL
  have a3 := nextButton_release_idle s.button hs (decide (s.pb_delay_timer = 0)) hsP
  have a4 := nextButton_release_idle t.button ht (decide (t.pb_delay_timer = 0)) htP
  rw [← es] at a1 a3
  rw [← et] at a2 a4
  refine ⟨⟨a1.1, a1.2.1⟩, ⟨a2.1, a2.2.1⟩, ?_, ⟨a3.1, a4.1⟩, ?_⟩
  · intro h
    have h1 := a1.2.2
    rw [h, a2.2.2] at h1
    exact absurd h1 (by decide)
  · intro pin2 h2
    rw [button_sampleButtons _ pin2, button_sampleButtons _ pin2, h2]
    exact ⟨a3.2.2 _, a4.2.2 _⟩

/-- C7: whenever `sampleButtons` changes the button state the ack flag of the
new state is clear; when ack was set and is clear afterwards, the other bits
have changed; `buttonAck` changes nothing but the ack flag. -/
theorem C7_ack_cleared_by_new_event (s : State) (btn_pin : Nat) (hb : s.button < 256) :
    ((sampleButtons s btn_pin).button ≠ s.button →
      (sampleButtons s btn_pin).button &&& PB_ACK = 0) ∧
    (s.button &&& PB_ACK ≠ 0 → (sampleButtons s btn_pin).button &&& PB_ACK = 0 →
      (sampleButtons s btn_pin).button &&& not8 PB_ACK ≠ s.button &&& not8 PB_ACK) ∧
    (buttonAck s = { s with button := s.button ||| PB_ACK }
      ∧ (buttonAck s).button &&& not8 PB_ACK = s.button &&& not8 PB_ACK) := by
  have key := nextButton_fresh s.button hb (decide (s.pb_delay_timer = 0))
    (readButtons btn_pin) (readButtons_mem btn_pin)
  rw [← button_sampleButtons] at key
  refine ⟨key.1, key.2, rfl, ?_⟩
  show (s.button ||| PB_ACK) &&& not8 PB_ACK = s.button &&& not8 PB_ACK
  rw [Nat.and_distrib_right]
  have : PB_ACK &&& not8 PB_ACK = 0 := by decide
  rw [this, Nat.or_zero]

/-- C8: a sample showing both buttons sets the state to exactly `BOTH_PRESSED`
when the long flag is clear and the state is not already a both-buttons
press; in a state with press and long flags set, every sample with a button
active leaves the button state unchanged. -/
theorem C8_both_buttons (s : State) (btn_pin : Nat) (hb : s.button < 256) :
    (readButtons btn_pin = BOTH_BTNS → s.button &&& PB_LONG = 0 →
      ¬ (s.button &&& PB_PRESS ≠ 0 ∧ s.button &&& BTN_MASK = BOTH_BTNS) →
      (sampleButtons s btn_pin).button = BOTH_PRESSED) ∧
    (readButtons btn_pin ≠ 0 → s.button &&& PB_PRESS ≠ 0 → s.button &&& PB_LONG ≠ 0 →
      (sampleButtons s btn_pin).button = s.button) := by
  constructor
  · intro hpb hl hn
    rw [button_sampleButtons, hpb]
    exact nextButton_both s.button hb _ hl hn
  · intro hpb hp hl
    rw [button_sampleButtons]
    have hm : readButtons btn_pin ∈ [BUTTON1, BUTTON2, BOTH_BTNS] := by
      rcases readButtons_cases btn_pin with h | h | h | h
      · exact absurd h hpb
      all_goals rw [h]; decide
    exact nextButton_longpress_held s.button hb _ _ hm hp hl

/-- Witness of C6: releasing an acknowledged long-press of button 1 and a short
press of button 1. -/
theorem C6_release_witness :
    (readButtons 0xFF = 0
      ∧ ({ State.zero with button := BTN1_LONGPRESSED ||| PB_ACK } : State).button < 256
      ∧ ({ State.zero with button := BTN1_PRESSED } : State).button < 256) ∧
    (sampleButtons { State.zero with button := BTN1_LONGPRESSED ||| PB_ACK } 0xFF).button
      ≠ (sampleButtons { State.zero with button := BTN1_PRESSED } 0xFF).button :=
  ⟨by decide,
    (C6_release { State.zero with button := BTN1_LONGPRESSED ||| PB_ACK }
      { State.zero with button := BTN1_PRESSED } 0xFF (by decide) (by decide) (by decide)
      (by decide) (by decide) (by decide) (by decide)).2.2.1⟩

/-- Witness of C7: an acknowledged press of button 1 that is released. -/
theorem C7_ack_cleared_by_new_event_witness :
    ({ State.zero with button := BTN1_PRESSED ||| PB_ACK } : State).button < 256 ∧
    ((sampleButtons { State.zero with button := BTN1_PRESSED ||| PB_ACK } 0xFF).button
        ≠ ({ State.zero with button := BTN1_PRESSED ||| PB_ACK } : State).button →
      (sampleButtons { State.zero with button := BTN1_PRESSED ||| PB_ACK } 0xFF).button
        &&& PB_ACK = 0) :=
  ⟨by decide,
    (C7_ack_cleared_by_new_event { State.zero with button := BTN1_PRESSED ||| PB_ACK } 0xFF
      (by decide)).1⟩

/-- Witness of C8: both buttons sampled during an acknowledged press of button 1. -/
theorem C8_both_buttons_witness :
    (({ State.zero with button := BTN1_PRESSED ||| PB_ACK } : State).button < 256
      ∧ readButtons 0x5F = BOTH_BTNS) ∧
    (sampleButtons { State.zero with button := BTN1_PRESSED ||| PB_ACK } 0x5F).button
      = BOTH_PRESSED :=
  ⟨by decide,
    (C8_both_buttons { State.zero with button := BTN1_PRESSED ||| PB_ACK } 0x5F
      (by decide)).1 (by decide) (by decide) (by decide)⟩

/-! ## The shift-register engine -/

set_option maxRecDepth 100000 in
theorem shiftOut_bits :
    ∀ w < 256, shiftOut w 8 =
      [w.testBit 7, w.testBit 6, w.testBit 5, w.testBit 4,
       w.testBit 3, w.testBit 2, w.testBit 1, w.testBit 0] := by
  decide

set_option maxRecDepth 100000 in
theorem shiftIn_shiftOut : ∀ w < 256, shiftIn 0 (shiftOut w 8) = w := by
  decide

set_option maxRecDepth 100000 in
theorem shiftIn_bits :
    ∀ l0 l1 l2 l3 l4 l5 l6 l7 : Bool,
      shiftIn 0 [l0, l1, l2, l3, l4, l5, l6, l7] < 256 ∧
      ∀ k < 8, (shiftIn 0 [l0, l1, l2, l3, l4, l5, l6, l7]).testBit (7 - k)
        = [l0, l1, l2, l3, l4, l5, l6, l7].getD k false := by
  decide

theorem range_map_eight (line : Nat → Bool) :
    (List.range 8).map line
      = [line 0, line 1, line 2, line 3, line 4, line 5, line 6, line 7] := rfl

/-- C9: with both widths 8, after `writeShiftRegister(w)` one run of
`updateShiftRegister` against a loop-back fixture makes `readShiftRegister`
return `w`; the output loop drives bit 7 down to bit 0 of `w`, and the input
loop puts the `k`-th sampled level into bit `7 - k` of the input word. -/
theorem C9_shift_loopback (s : State) (w : Nat) (hw : w < 256) (line : Nat → Bool) :
    ((∀ k < 8, line k = (updateShiftRegister (writeShiftRegister s w) line).2.getD k false) →
      readShiftRegister (updateShiftRegister (writeShiftRegister s w) line).1 = w) ∧
    (updateShiftRegister (writeShiftRegister s w) line).2 =
      [w.testBit 7, w.testBit 6, w.testBit 5, w.testBit 4,
       w.testBit 3, w.testBit 2, w.testBit 1, w.testBit 0] ∧
    (∀ k < 8, (readShiftRegister (updateShiftRegister (writeShiftRegister s w) line).1).testBit
        (7 - k) = line k) := by
  have hout : (updateShiftRegister (writeShiftRegister s w) line).2 = shiftOut w 8 := rfl
  have hin : readShiftRegister (updateShiftRegister (writeShiftRegister s w) line).1
      = shiftIn 0 ((List.range 8).map line) := rfl
  refine ⟨?_, ?_, ?_⟩
  · intro h
    rw [hout] at h
    have e : [line 0, line 1, line 2, line 3, line 4, line 5, line 6, line 7]
        = shiftOut w 8 := by
      rw [h 0 (by omega), h 1 (by omega), h 2 (by omega), h 3 (by omega), h 4 (by omega),
        h 5 (by omega), h 6 (by omega), h 7 (by omega), shiftOut_bits w hw]
      rfl
    rw [hin, range_map_eight, e, shiftIn_shiftOut w hw]
  · rw [hout, shiftOut_bits w hw]
  · intro k hk
    rw [hin, range_map_eight, (shiftIn_bits _ _ _ _ _ _ _ _).2 k hk]
    interval_cases k <;> rfl

/-- Witness of C9 at `w = 0xA5` with the loop-back line. -/
theorem C9_shift_loopback_witness :
    0xA5 < 256 ∧
    readShiftRegister (updateShiftRegister (writeShiftRegister State.zero 0xA5)
      (fun k => (shiftOut 0xA5 8).getD k false)).1 = 0xA5 :=
  ⟨by decide,
    (C9_shift_loopback State.zero 0xA5 (by decide)
      (fun k => (shiftOut 0xA5 8).getD k false)).1 (fun _ _ => rfl)⟩

/-! ## The analog sampler -/

theorem rawCapture_lt (s : State) (tcnt0 : Nat) : rawCapture s tcnt0 < 256 := by
  unfold rawCapture; omega

theorem rawCapture_surj (s : State) (rc : Nat) (h : rc < 256) :
    rawCapture s ((s.start_time + 1 + rc) % 256) = rc := by
  unfold rawCapture; omega

theorem analog_updateAnalog_detent (s : State) (tcnt0 : Nat)
    (h1 : 1 ≤ s.analog_resolution) (h6 : s.analog_resolution ≤ 6) :
    (updateAnalog s tcnt0).analog =
      ((((scaleCapture s.analog_resolution (rawCapture s tcnt0)) + (s.analog + 2)) % 65536)
        >>> 2) % 256 := by
  unfold updateAnalog
  simp only [ANALOG_OFF, ANALOG_MAX_RESOLUTION]
  rw [if_neg (by omega), if_neg (by omega)]

/-- C10: with `rc` the raw capture value (any value in `0..255` can occur) and
a previous sample below 256, `updateAnalog` stores 0 at level "off" and, at
the detent levels 1 to 6, `(scaled + old + 2) / 4` in exact arithmetic, where
`scaled` is `rc + rc/2`, `rc`, `rc - rc/4`, `rc - rc/2`, `3*rc/8`, `rc/4`. -/
theorem C10_updateAnalog (s : State) (tcnt0 : Nat) (hold : s.analog < 256) :
    (rawCapture s tcnt0 < 256
      ∧ ∀ rc < 256, rawCapture s ((s.start_time + 1 + rc) % 256) = rc) ∧
    (s.analog_resolution = ANALOG_OFF → (updateAnalog s tcnt0).analog = 0) ∧
    (s.analog_resolution = ANALOG_129_DETENT_STEPS → (updateAnalog s tcnt0).analog =
      (rawCapture s tcnt0 + rawCapture s tcnt0 / 2 + s.analog + 2) / 4) ∧
    (s.analog_resolution = ANALOG_86_DETENT_STEPS → (updateAnalog s tcnt0).analog =
      (rawCapture s tcnt0 + s.analog + 2) / 4) ∧
    (s.analog_resolution = ANALOG_65_DETENT_STEPS → (updateAnalog s tcnt0).analog =
      (rawCapture s tcnt0 - rawCapture s tcnt0 / 4 + s.analog + 2) / 4) ∧
    (s.analog_resolution = ANALOG_43_DETENT_STEPS → (updateAnalog s tcnt0).analog =
      (rawCapture s tcnt0 - rawCapture s tcnt0 / 2 + s.analog + 2) / 4) ∧
    (s.analog_resolution = ANALOG_33_DETENT_STEPS → (updateAnalog s tcnt0).analog =
      (3 * rawCapture s tcnt0 / 8 + s.analog + 2) / 4) ∧
    (s.analog_resolution = ANALOG_22_DETENT_STEPS → (updateAnalog s tcnt0).analog =
      (rawCapture s tcnt0 / 4 + s.analog + 2) / 4) := by
  have hrc := rawCapture_lt s tcnt0
  refine ⟨⟨hrc, rawCapture_surj s⟩, ?_, ?_, ?_, ?_, ?_, ?_, ?_⟩
  · intro h
    unfold updateAnalog
    simp [h]
  all_goals
    intro h
    rw [analog_updateAnalog_detent s tcnt0 (by rw [h]; decide) (by rw [h]; decide), h]
    generalize rawCapture s tcnt0 = rc at hrc ⊢
    simp only [scaleCapture, ANALOG_129_DETENT_STEPS, ANALOG_86_DETENT_STEPS,
      ANALOG_65_DETENT_STEPS, ANALOG_43_DETENT_STEPS, ANALOG_33_DETENT_STEPS,
      ANALOG_22_DETENT_STEPS, Nat.shiftRight_eq_div_pow, Nat.reduceEqDiff, if_true, if_false,
      Nat.reducePow]
    have e1 : (rc + rc) % 65536 = rc + rc := Nat.mod_eq_of_lt (by omega)
    have e2 : (rc + rc + rc) % 65536 = 3 * rc := by omega
    try simp only [e1, e2]
    omega

/-- Witness of C10: level 1 with `rc = 200` and previous sample 100. -/
theorem C10_updateAnalog_witness :
    ({ State.zero with analog := 100, analog_resolution := 1 } : State).analog < 256 ∧
    (updateAnalog { State.zero with analog := 100, analog_resolution := 1 } 201).analog =
      (rawCapture { State.zero with analog := 100, analog_resolution := 1 } 201
        + rawCapture { State.zero with analog := 100, analog_resolution := 1 } 201 / 2
        + ({ State.zero with analog := 100, analog_resolution := 1 } : State).analog + 2) / 4 :=
  ⟨by decide,
    (C10_updateAnalog { State.zero with analog := 100, analog_resolution := 1 } 201
      (by decide)).2.2.1 rfl⟩


/-! ## Claims about the segment encoder and the display buffer -/

/-! ## The segment encoder and the display buffer -/

theorem charIndex_lt (c : Nat) : charIndex c < 64 := by
  unfold charIndex; split_ifs <;> omega

theorem charIndex_blank (c : Nat) (h : (16 ≤ c ∧ c ≤ 31) ∨ 128 ≤ c) : charIndex c = 0 := by
  unfold charIndex
  rcases h with ⟨h1, h2⟩ | h
  · rw [if_neg (by omega), if_neg (by omega), if_pos h2]
  · rw [if_neg (by omega), if_neg (by omega), if_neg (by omega), if_neg (by omega),
      if_neg (by omega)]

theorem charIndex_letter (i : Nat) (hi : i < 26) :
    charIndex (97 + i) = 33 + i ∧ charIndex (65 + i) = 33 + i := by
  unfold charIndex
  constructor
  · rw [if_neg (by omega), if_neg (by omega), if_neg (by omega), if_neg (by omega),
      if_pos (by omega)]
    omega
  · rw [if_neg (by omega), if_neg (by omega), if_neg (by omega), if_pos (by omega)]
    omega

/-- C13: for every character code the index `writeChar` computes lies within the
64 entries of the character generator, and for codes 16..31 and codes from 128
on the pattern written is the blank pattern 0 (read back by `getDisplay`). -/
theorem C13_writeChar_total (c : Nat) :
    (charIndex c < char_gen.length ∧ char_gen.length = 64) ∧
    ((16 ≤ c ∧ c ≤ 31) ∨ 128 ≤ c →
      glyph c = 0 ∧
      ∀ (s : State) (pos : Nat), pos < 3 → getDisplay (writeChar s c pos) pos = 0) := by
  have hl : char_gen.length = 64 := by decide
  refine ⟨⟨by rw [hl]; exact charIndex_lt c, hl⟩, ?_⟩
  intro h
  have hg : glyph c = 0 := by
    unfold glyph; rw [charIndex_blank c h]; decide
  refine ⟨hg, fun s pos hpos => ?_⟩
  rw [getDisplay_writeChar, if_pos ⟨by simpa [MAX_DIGITS] using hpos, rfl⟩, hg]

/-- Witness of C13 at character code 200. -/
theorem C13_writeChar_total_witness :
    ((16 ≤ 200 ∧ 200 ≤ 31) ∨ 128 ≤ 200) ∧
    getDisplay (writeChar State.zero 200 1) 1 = 0 :=
  ⟨by decide, ((C13_writeChar_total 200).2 (by decide)).2 State.zero 1 (by decide)⟩

/-- C14: for every letter index `i` below 26, `writeChar('a' + i, p)` and
`writeChar('A' + i, p)` give the same state. -/
theorem C14_letter_case (s : State) (i p : Nat) (hi : i < 26) :
    writeChar s (97 + i) p = writeChar s (65 + i) p := by
  unfold writeChar glyph
  rw [(charIndex_letter i hi).1, (charIndex_letter i hi).2]

/-- Witness of C14 at the letter z. -/
theorem C14_letter_case_witness :
    25 < 26 ∧ writeChar State.zero (97 + 25) 2 = writeChar State.zero (65 + 25) 2 :=
  ⟨by decide, C14_letter_case State.zero 25 2 (by decide)⟩

/-- C17: after `setDisplay(p, pos)` with `pos` in 0..2, `getDisplay(pos)` returns
`p` and every other position reads as before; after `clearDisplay()` the three
positions read 0. -/
theorem C17_set_get_display (s : State) (p pos : Nat) (hp : p < 256) (hpos : pos < 3) :
    getDisplay (setDisplay s p pos) pos = p ∧
    (∀ q, q ≠ pos → getDisplay (setDisplay s p pos) q = getDisplay s q) ∧
    (∀ q, q < 3 → getDisplay (clearDisplay s) q = 0) := by
  have hge : ¬ pos ≥ MAX_DIGITS := by simp [MAX_DIGITS]; omega
  refine ⟨?_, ?_, ?_⟩
  · unfold setDisplay getDisplay
    rw [if_neg hge]
    simp only [if_true]
    exact not8_not8 p hp
  · intro q hq
    unfold setDisplay getDisplay
    rw [if_neg hge]
    simp only [if_neg hq]
  · intro q hq
    unfold clearDisplay getDisplay
    simp only [MAX_DIGITS, if_pos hq]
    decide

/-- Witness of C17 at pattern 0xA5, position 1. -/
theorem C17_set_get_display_witness :
    (0xA5 < 256 ∧ 1 < 3) ∧ getDisplay (setDisplay State.zero 0xA5 1) 1 = 0xA5 :=
  ⟨by decide, (C17_set_get_display State.zero 0xA5 1 (by decide) (by decide)).1⟩

theorem getDisplay_writeString_P_loop (st : List Nat) :
    ∀ (s : State) (pos p : Nat), (∀ c ∈ st, c ≠ 0) → pos ≤ 3 →
      getDisplay (writeString_P_loop s st pos) p =
        (if p < pos ∧ pos - 1 - p < st.length then glyph (st.getD (pos - 1 - p) 0)
         else getDisplay s p) := by
  induction st with
  | nil =>
    intro s pos p _ _
    simp [writeString_P_loop]
  | cons ch st ih =>
    intro s pos p hst hpos
    cases pos with
    | zero => simp [writeString_P_loop]
    | succ n =>
      have hch : ch ≠ 0 := hst ch (List.mem_cons_self _ _)
      have hrest : ∀ c ∈ st, c ≠ 0 := fun c hc => hst c (List.mem_cons_of_mem _ hc)
      simp only [writeString_P_loop, if_neg hch]
      rw [ih (writeChar s ch n) n p hrest (by omega), getDisplay_writeChar]
      have hn : n < MAX_DIGITS := by simp [MAX_DIGITS]; omega
      rcases Nat.lt_trichotomy p n with h | h | h
      · have e : n + 1 - 1 - p = (n - 1 - p) + 1 := by omega
        have hne : ¬ (n < MAX_DIGITS ∧ p = n) := by omega
        rw [e, List.getD_cons_succ, if_neg hne]
        have c1 : (p < n ∧ n - 1 - p < st.length)
            ↔ (p < n + 1 ∧ n - 1 - p + 1 < (ch :: st).length) := by
          simp only [List.length_cons]; omega
        simp only [c1]
      · subst h
        rw [if_neg (by omega), if_pos ⟨hn, rfl⟩, if_pos (by simp)]
        simp
      · rw [if_neg (by omega), if_neg (by omega), if_neg (by omega)]


/-- C15 as stated fails: a string of one character is shown at the leftmost
position 2, position 0 keeps its previous content. -/
theorem C15_counterexample :
    getDisplay (writeString_P State.zero [65]) 0 ≠ glyph 65 ∧
    getDisplay (writeString_P State.zero [65]) 2 ≠ getDisplay State.zero 2 := by
  decide

/-- C15, amended: `writeString_P` writes a string left-justified: character
number `k` (from 0) of a string without NUL bytes is shown at position `2 - k`
for `k < 3`, positions below `3 - n` keep their content for a string of
`n < 3` characters, and writing stops after three characters. -/
theorem C15_writeString_P_left_justified (s : State) (st : List Nat) (p : Nat)
    (hst : ∀ c ∈ st, c ≠ 0) :
    getDisplay (writeString_P s st) p =
      (if p < 3 ∧ 2 - p < st.length then glyph (st.getD (2 - p) 0) else getDisplay s p) := by
  unfold writeString_P
  rw [getDisplay_writeString_P_loop st s MAX_DIGITS p hst (by decide)]
  rfl

/-- Witness of C15 (amended): the second character of a two-character string
is shown at position 1. -/
theorem C15_writeString_P_left_justified_witness :
    (∀ c ∈ [72, 105], c ≠ 0) ∧
    getDisplay (writeString_P State.zero [72, 105]) 1 =
      (if 1 < 3 ∧ 2 - 1 < [72, 105].length then glyph ([72, 105].getD (2 - 1) 0)
       else getDisplay State.zero 1) :=
  ⟨by decide, C15_writeString_P_left_justified State.zero [72, 105] 1 (by decide)⟩


/-! ## Configuration bounds -/

theorem config_setDisplay (s : State) (p pos : Nat) :
    (setDisplay s p pos).decimal_places = s.decimal_places ∧
    (setDisplay s p pos).analog_resolution = s.analog_resolution := by
  unfold setDisplay; split <;> exact ⟨rfl, rfl⟩

theorem config_writeChar (s : State) (c pos : Nat) :
    (writeChar s c pos).decimal_places = s.decimal_places ∧
    (writeChar s c pos).analog_resolution = s.analog_resolution :=
  config_setDisplay s _ pos

theorem config_writeString_P_loop (st : List Nat) :
    ∀ (s : State) (pos : Nat),
      (writeString_P_loop s st pos).decimal_places = s.decimal_places ∧
      (writeString_P_loop s st pos).analog_resolution = s.analog_resolution := by
  induction st with
  | nil => intro s pos; exact ⟨rfl, rfl⟩
  | cons ch st ih =>
    intro s pos
    cases pos with
    | zero => exact ⟨rfl, rfl⟩
    | succ pos =>
      simp only [writeString_P_loop]
      split
      · exact ⟨rfl, rfl⟩
      · have h1 := ih (writeChar s ch pos) pos
        have h2 := config_writeChar s ch pos
        exact ⟨h1.1.trans h2.1, h1.2.trans h2.2⟩

theorem config_writeDigits (digit : Nat × Nat × Nat) (ii : Nat) :
    ∀ (s : State) (d : Nat),
      (writeDigits s digit ii d).decimal_places = s.decimal_places ∧
      (writeDigits s digit ii d).analog_resolution = s.analog_resolution := by
  induction ii with
  | zero => intro s d; exact ⟨rfl, rfl⟩
  | succ ii ih =>
    intro s d
    simp only [writeDigits]
    split
    · have h1 := ih (writeChar s (if d ≠ 32 ∨ ii = s.decimal_places ∨ digitAt digit ii > 0
        then digitAt digit ii else d) ii) (if d ≠ 32 ∨ ii = s.decimal_places ∨ digitAt digit ii > 0
        then digitAt digit ii else d)
      have h2 := config_writeChar s (if d ≠ 32 ∨ ii = s.decimal_places ∨ digitAt digit ii > 0
        then digitAt digit ii else d) ii
      exact ⟨h1.1.trans h2.1, h1.2.trans h2.2⟩
    · exact config_writeChar s _ ii

theorem config_writeInt (s : State) (val : Int) :
    (writeInt s val).decimal_places = s.decimal_places ∧
    (writeInt s val).analog_resolution = s.analog_resolution := by
  unfold writeInt
  split
  · exact config_writeString_P_loop _ s _
  · split
    · exact config_writeString_P_loop _ s _
    · simp only []
      have h1 := config_writeDigits (convertDigits (toU16 (if decide (val < 0) = true then -val else val)))
        (if decide (val < 0) = true then MAX_DIGITS - 1 else MAX_DIGITS)
        (if decide (val < 0) = true then writeChar s 45 (MAX_DIGITS - 1) else s) 32
      refine ⟨h1.1.trans ?_, h1.2.trans ?_⟩
      · split
        · exact (config_writeChar s 45 _).1
        · rfl
      · split
        · exact (config_writeChar s 45 _).2
        · rfl

theorem config_writeHex (s : State) (val : Nat) :
    (writeHex s val).decimal_places = s.decimal_places ∧
    (writeHex s val).analog_resolution = s.analog_resolution := by
  unfold writeHex
  simp only [config_writeChar, and_self]

theorem config_sampleButtons (s : State) (btn_pin : Nat) :
    (sampleButtons s btn_pin).decimal_places = s.decimal_places ∧
    (sampleButtons s btn_pin).analog_resolution = s.analog_resolution := by
  unfold sampleButtons
  simp only []
  split_ifs <;> exact ⟨rfl, rfl⟩

theorem config_update (s : State) (inp : TickInput) :
    (update s inp).decimal_places = s.decimal_places ∧
    (update s inp).analog_resolution = s.analog_resolution := by
  unfold update updateShiftRegister
  simp only []
  split_ifs <;> simp [config_sampleButtons]

theorem config_updateAnalog (s : State) (tcnt0 : Nat) :
    (updateAnalog s tcnt0).decimal_places = s.decimal_places ∧
    (updateAnalog s tcnt0).analog_resolution = s.analog_resolution := by
  unfold updateAnalog
  simp only []
  split_ifs <;> exact ⟨rfl, rfl⟩

theorem config_init (s : State) :
    (init s).decimal_places < 3 ∧ (init s).analog_resolution ≤ 7 := by
  have h1 : (init s).decimal_places = DECIMAL_PLACES := rfl
  have h2 : (init s).analog_resolution = ANALOG_MAX_RESOLUTION := rfl
  rw [h1, h2]; decide

theorem config_bounds_applyOp (s : State) (op : Op)
    (h : s.decimal_places < 3 ∧ s.analog_resolution ≤ 7) :
    (applyOp s op).decimal_places < 3 ∧ (applyOp s op).analog_resolution ≤ 7 := by
  cases op with
  | init => exact config_init s
  | clearDisplay => exact h
  | setDisplay p pos => rw [applyOp, (config_setDisplay s p pos).1, (config_setDisplay s p pos).2]; exact h
  | writeChar c pos => rw [applyOp, (config_writeChar s c pos).1, (config_writeChar s c pos).2]; exact h
  | writeString_P st =>
    rw [applyOp, writeString_P, (config_writeString_P_loop st s _).1,
      (config_writeString_P_loop st s _).2]; exact h
  | writeInt val => rw [applyOp, (config_writeInt s val).1, (config_writeInt s val).2]; exact h
  | writeHex val => rw [applyOp, (config_writeHex s val).1, (config_writeHex s val).2]; exact h
  | setDimming dim => exact h
  | setDecimalPlaces decimals =>
    simp only [applyOp, setDecimalPlaces, MAX_DIGITS]
    split
    · exact ⟨by assumption, h.2⟩
    · exact h
  | setAnalogResolution ana_res =>
    simp only [applyOp, setAnalogResolution, ANALOG_OFF]
    split
    · exact ⟨h.1, by assumption⟩
    · exact h
  | buttonAck => exact h
  | writeShiftRegister out_data => exact h
  | update inp => rw [applyOp, (config_update s inp).1, (config_update s inp).2]; exact h
  | updateAnalog tcnt0 =>
    rw [applyOp, (config_updateAnalog s tcnt0).1, (config_updateAnalog s tcnt0).2]; exact h

theorem config_bounds_runOps (ops : List Op) :
    ∀ s : State, s.decimal_places < 3 ∧ s.analog_resolution ≤ 7 →
      (runOps s ops).decimal_places < 3 ∧ (runOps s ops).analog_resolution ≤ 7 := by
  induction ops with
  | nil => intro s h; exact h
  | cons op ops ih => intro s h; exact ih (applyOp s op) (config_bounds_applyOp s op h)

/-- C16: a position of 3 or more makes `setDisplay` and `writeChar` no-ops, a
decimals value of 3 or more makes `setDecimalPlaces` a no-op, a level above 7
makes `setAnalogResolution` a no-op, in-range arguments are stored; after
`init` and any sequence of calls the decimal-places setting is below 3 and
the analog resolution at most 7. -/
theorem C16_out_of_range_ignored (s : State) :
    (∀ pattern code pos, 3 ≤ pos →
      setDisplay s pattern pos = s ∧ writeChar s code pos = s) ∧
    (∀ pattern pos, pos < 3 → (setDisplay s pattern pos).display pos = not8 pattern) ∧
    (∀ decimals, 3 ≤ decimals → setDecimalPlaces s decimals = s) ∧
    (∀ decimals, decimals < 3 → (setDecimalPlaces s decimals).decimal_places = decimals) ∧
    (∀ level, 7 < level → setAnalogResolution s level = s) ∧
    (∀ level, level ≤ 7 → (setAnalogResolution s level).analog_resolution = level) ∧
    (∀ ops : List Op,
      (runOps (init s) ops).decimal_places < 3 ∧ (runOps (init s) ops).analog_resolution ≤ 7) := by
  refine ⟨?_, ?_, ?_, ?_, ?_, ?_, ?_⟩
  · intro pattern code pos h
    have hp : pos ≥ MAX_DIGITS := h
    exact ⟨by unfold setDisplay; rw [if_pos hp], by unfold writeChar setDisplay; rw [if_pos hp]⟩
  · intro pattern pos h
    have hp : ¬ pos ≥ MAX_DIGITS := by simp [MAX_DIGITS]; omega
    unfold setDisplay; rw [if_neg hp]; simp
  · intro decimals h
    unfold setDecimalPlaces; rw [if_neg (by simp [MAX_DIGITS]; omega)]
  · intro decimals h
    unfold setDecimalPlaces; rw [if_pos (by simpa [MAX_DIGITS] using h)]
  · intro level h
    unfold setAnalogResolution; rw [if_neg (by simp [ANALOG_OFF]; omega)]
  · intro level h
    unfold setAnalogResolution; rw [if_pos (by simpa [ANALOG_OFF] using h)]
  · intro ops
    exact config_bounds_runOps ops (init s) (config_init s)

/-- Witness of C16: position 3 is ignored by `setDisplay` and `writeChar`. -/
theorem C16_out_of_range_ignored_witness :
    3 ≤ 3 ∧ (setDisplay State.zero 0xFF 3 = State.zero ∧ writeChar State.zero 65 3 = State.zero) :=
  ⟨le_refl 3, (C16_out_of_range_ignored State.zero).1 0xFF 65 3 (le_refl 3)⟩

/-! ## The tick -/

theorem frame_sampleButtons (s : State) (btn_pin : Nat) :
    (sampleButtons s btn_pin).display = s.display ∧
    (sampleButtons s btn_pin).dimming = s.dimming ∧
    (sampleButtons s btn_pin).current_pos = s.current_pos ∧
    (sampleButtons s btn_pin).start_time = s.start_time ∧
    (sampleButtons s btn_pin).portb = s.portb ∧
    (sampleButtons s btn_pin).portd = s.portd := by
  unfold sampleButtons
  simp only []
  split_ifs <;> exact ⟨rfl, rfl, rfl, rfl, rfl, rfl⟩

theorem frame_update (s : State) (inp : TickInput) :
    (update s inp).display = s.display ∧ (update s inp).dimming = s.dimming := by
  unfold update updateShiftRegister
  simp only []
  split_ifs <;> simp [frame_sampleButtons]

theorem current_pos_update (s : State) (inp : TickInput) :
    (update s inp).current_pos =
      ((if s.current_pos = 0 then (MAX_DIGITS + 1 + s.dimming) % 256 else s.current_pos)
        + 255) % 256 := by
  unfold update updateShiftRegister
  simp only []
  split_ifs <;> simp_all [frame_sampleButtons]

theorem portd_update (s : State) (inp : TickInput) :
    (update s inp).portd =
      (if (update s inp).current_pos < MAX_DIGITS then s.display (update s inp).current_pos
       else 0x7F) := by
  rw [current_pos_update]
  unfold update updateShiftRegister
  simp only []
  split_ifs <;> simp_all [frame_sampleButtons] <;> omega

theorem anode_bits_set (x : Nat) :
    ∀ pos < 3, (x ||| ANODE_MASK).testBit (anodeBit pos) = true := by
  intro pos hpos
  rw [Nat.testBit_or]
  have : ANODE_MASK.testBit (anodeBit pos) = true := by
    interval_cases pos <;> decide
  rw [this, Bool.or_true]

theorem anode_bits_or (x y : Nat) (h : ∀ pos < 3, x.testBit (anodeBit pos) = true) :
    ∀ pos < 3, (x ||| y).testBit (anodeBit pos) = true := by
  intro pos hpos
  rw [Nat.testBit_or, h pos hpos, Bool.true_or]

theorem portb_update (s : State) (inp : TickInput) :
    ∃ x : Nat, (∀ pos < 3, x.testBit (anodeBit pos) = true) ∧
      (update s inp).portb =
        (if (update s inp).current_pos < MAX_DIGITS
         then x &&& not8 (col_bit.getD (update s inp).current_pos 0) else x) := by
  by_cases hs : (s.pb_timer + 255) % 256 = 0
  · refine ⟨s.portb ||| ANODE_MASK ||| (1 <<< SH_REG_OUT_BIT) ||| (1 <<< SH_REG_CLK_BIT)
      ||| (1 <<< SH_REG_LD_BIT) ||| (1 <<< BTN_COM),
      anode_bits_or _ _ (anode_bits_or _ _ (anode_bits_or _ _ (anode_bits_or _ _
        (anode_bits_set _)))), ?_⟩
    rw [current_pos_update]
    unfold update updateShiftRegister
    simp only []
    split_ifs <;> simp_all [frame_sampleButtons] <;> omega
  · refine ⟨s.portb ||| ANODE_MASK ||| (1 <<< SH_REG_OUT_BIT) ||| (1 <<< SH_REG_CLK_BIT)
      ||| (1 <<< SH_REG_LD_BIT),
      anode_bits_or _ _ (anode_bits_or _ _ (anode_bits_or _ _ (anode_bits_set _))), ?_⟩
    rw [current_pos_update]
    unfold update updateShiftRegister
    simp only []
    split_ifs <;> simp_all [frame_sampleButtons]

/-- C11 as stated fails: with start time 10 and capture time 15 the sample at
maximum resolution is 4, not `(15 - 10) % 256 = 5`. -/
theorem C11_counterexample :
    getAnalog (updateAnalog { State.zero with start_time := 10 } 15) = 4 ∧
    getAnalog (updateAnalog { State.zero with start_time := 10 } 15) ≠ (15 - 10) % 256 := by
  decide

theorem start_time_update (s : State) (inp : TickInput) (h : s.current_pos = 0) :
    (update s inp).start_time = inp.tcnt0 % 256 := by
  unfold update updateShiftRegister
  simp only []
  split_ifs <;> simp_all [frame_sampleButtons]

/-- C11, amended: at maximum resolution `getAnalog()` returns
`(t - s - 1) mod 256` after `updateAnalog`, where `s` is the start time (the
counter value `update()` captured on a tick entered with slot counter 0) and
`t` the counter value read at capture, whatever the previous sample was. -/
theorem C11_max_resolution (s : State) (t : Nat)
    (hres : s.analog_resolution = ANALOG_MAX_RESOLUTION) :
    getAnalog (updateAnalog s t) = (((t : Int) - (s.start_time : Int) - 1) % 256).toNat ∧
    (∀ inp : TickInput, s.current_pos = 0 →
      getAnalog (updateAnalog (update s inp) t)
        = (((t : Int) - ((inp.tcnt0 % 256 : Nat) : Int) - 1) % 256).toNat) := by
  have key : ∀ u : State, u.analog_resolution = ANALOG_MAX_RESOLUTION →
      getAnalog (updateAnalog u t) = (((t : Int) - (u.start_time : Int) - 1) % 256).toNat := by
    intro u hu
    simp [getAnalog, updateAnalog, hu, ANALOG_OFF, ANALOG_MAX_RESOLUTION, rawCapture]
  refine ⟨key s hres, fun inp h0 => ?_⟩
  rw [key (update s inp) (by rw [(config_update s inp).2]; exact hres), start_time_update s inp h0]

/-- Witness of C11 (amended) at start time 10 and capture time 15. -/
theorem C11_max_resolution_witness :
    ({ State.zero with start_time := 10 } : State).analog_resolution = ANALOG_MAX_RESOLUTION ∧
    getAnalog (updateAnalog { State.zero with start_time := 10 } 15)
      = ((((15 : Nat) : Int)
          - (({ State.zero with start_time := 10 } : State).start_time : Int) - 1)
          % 256).toNat :=
  ⟨rfl, (C11_max_resolution { State.zero with start_time := 10 } 15 rfl).1⟩

theorem drivers_update (s : State) (inp : TickInput) :
    ∀ pos < 3, digitDriverOn (update s inp) pos ↔ pos = (update s inp).current_pos := by
  intro pos hpos
  obtain ⟨x, hx, hp⟩ := portb_update s inp
  unfold digitDriverOn
  rw [hp]
  generalize (update s inp).current_pos = c
  by_cases hc : c < MAX_DIGITS
  · rw [if_pos hc, Nat.testBit_and, hx pos hpos, Bool.true_and]
    have hc3 : c < 3 := hc
    interval_cases c <;> interval_cases pos <;> decide
  · rw [if_neg hc, hx pos hpos]
    have : 3 ≤ c := by simpa [MAX_DIGITS] using hc
    constructor
    · intro h; exact absurd h (by decide)
    · intro h; omega

theorem dark_update (s : State) (inp : TickInput) :
    allDigitsDark (update s inp) ↔ 3 ≤ (update s inp).current_pos := by
  unfold allDigitsDark
  constructor
  · intro h
    by_contra hc
    have hc3 : (update s inp).current_pos < 3 := by omega
    exact h _ hc3 ((drivers_update s inp _ hc3).mpr rfl)
  · intro h pos hpos hon
    have := (drivers_update s inp pos hpos).mp hon
    have hp3 : pos < 3 := hpos
    omega

theorem slotsLeft_update (s : State) (inp : TickInput)
    (hk : s.dimming ≤ 252) (hc : s.current_pos ≤ 255) :
    (update s inp).current_pos = slotsLeft s - 1 ∧ 1 ≤ slotsLeft s ∧ slotsLeft s ≤ 256 := by
  rw [current_pos_update]
  unfold slotsLeft
  simp only [MAX_DIGITS]
  split_ifs <;> omega

theorem slotsLeft_of_ne (s : State) (h : s.current_pos ≠ 0) :
    slotsLeft s = s.current_pos := by
  unfold slotsLeft; rw [if_neg h]

theorem runUpdate_cons (s : State) (inp : TickInput) (inps : List TickInput) :
    runUpdate s (inp :: inps) = runUpdate (update s inp) inps := by
  unfold runUpdate; exact List.foldl_cons _ _

theorem frame_runUpdate (inps : List TickInput) :
    ∀ s : State, (runUpdate s inps).display = s.display ∧
      (runUpdate s inps).dimming = s.dimming := by
  induction inps with
  | nil => intro s; exact ⟨rfl, rfl⟩
  | cons inp inps ih =>
    intro s
    rw [runUpdate_cons]
    exact ⟨(ih _).1.trans (frame_update s inp).1, (ih _).2.trans (frame_update s inp).2⟩

theorem slot_runUpdate (inps : List TickInput) :
    ∀ s : State, s.dimming ≤ 252 → s.current_pos ≤ 255 → inps ≠ [] →
      inps.length ≤ slotsLeft s →
      (runUpdate s inps).current_pos = slotsLeft s - inps.length := by
  induction inps with
  | nil => intro s _ _ h; exact absurd rfl h
  | cons inp inps ih =>
    intro s hk hc _ hlen
    obtain ⟨h1, h2, h3⟩ := slotsLeft_update s inp hk hc
    rw [runUpdate_cons]
    by_cases hnil : inps = []
    · subst hnil
      simpa [runUpdate] using h1
    · have hpos : 0 < inps.length := List.length_pos.mpr hnil
      simp only [List.length_cons] at hlen
      have hne : (update s inp).current_pos ≠ 0 := by omega
      have hsl : slotsLeft (update s inp) = slotsLeft s - 1 := by
        rw [slotsLeft_of_ne _ hne, h1]
      have := ih (update s inp) (by rw [(frame_update s inp).2]; exact hk) (by omega) hnil
        (by omega)
      rw [this, hsl, List.length_cons]
      omega

theorem countDark_eq (inps : List TickInput) :
    ∀ s : State, s.dimming ≤ 252 → s.current_pos ≤ 255 → inps.length ≤ slotsLeft s →
      countDark s inps = min inps.length (slotsLeft s - 3) := by
  induction inps with
  | nil => intro s _ _ _; simp [countDark]
  | cons inp inps ih =>
    intro s hk hc hlen
    obtain ⟨h1, h2, h3⟩ := slotsLeft_update s inp hk hc
    simp only [List.length_cons] at hlen
    simp only [countDark, dark_update, List.length_cons]
    by_cases hnil : inps = []
    · subst hnil
      simp only [countDark, List.length_nil]
      split_ifs <;> omega
    · have hpos : 0 < inps.length := List.length_pos.mpr hnil
      have hne : (update s inp).current_pos ≠ 0 := by omega
      have hsl : slotsLeft (update s inp) = slotsLeft s - 1 := by
        rw [slotsLeft_of_ne _ hne, h1]
      rw [ih (update s inp) (by rw [(frame_update s inp).2]; exact hk) (by omega) (by omega),
        hsl, h1]
      split_ifs <;> omega

theorem runUpdate_concat (s : State) (inps : List TickInput) (inp : TickInput) :
    runUpdate s (inps ++ [inp]) = update (runUpdate s inps) inp := by
  simp [runUpdate, List.foldl_append]

theorem outputs_runUpdate (s : State) (inps : List TickInput) (hne : inps ≠ []) :
    (∀ pos < 3, digitDriverOn (runUpdate s inps) pos ↔ pos = (runUpdate s inps).current_pos) ∧
    (runUpdate s inps).portd =
      (if (runUpdate s inps).current_pos < MAX_DIGITS
       then s.display (runUpdate s inps).current_pos else 0x7F) := by
  rcases List.eq_nil_or_concat inps with h | ⟨l, a, h⟩
  · exact absurd h hne
  · subst h
    rw [List.concat_eq_append, runUpdate_concat]
    refine ⟨drivers_update _ a, ?_⟩
    rw [portd_update, (frame_runUpdate l s).1]

/-- C18: with a dimming level `k ≤ 251` and the slot counter at 0, of the next
`4 + k` calls of `update()` the first `k + 1` leave no digit driver enabled,
the following three enable exactly the driver of digit 2, then 1, then 0, with
`PORTD` driven from that digit's buffer entry; after the last call the slot
counter is 0 again, and after no call are two drivers enabled. -/
theorem C18_refresh_cycle (s : State) (inps : List TickInput)
    (hk : s.dimming ≤ 251) (h0 : s.current_pos = 0) (hlen : inps.length = 4 + s.dimming) :
    (∀ j, 1 ≤ j → j ≤ s.dimming + 1 → allDigitsDark (runUpdate s (inps.take j))) ∧
    (∀ i < 3,
      (∀ pos < 3, digitDriverOn (runUpdate s (inps.take (s.dimming + 2 + i))) pos ↔ pos = 2 - i) ∧
      (runUpdate s (inps.take (s.dimming + 2 + i))).portd = s.display (2 - i)) ∧
    (runUpdate s inps).current_pos = 0 ∧
    (∀ j, 1 ≤ j → j ≤ 4 + s.dimming → ∀ p < 3, ∀ q < 3,
      digitDriverOn (runUpdate s (inps.take j)) p →
      digitDriverOn (runUpdate s (inps.take j)) q → p = q) := by
  have hsl : slotsLeft s = 4 + s.dimming := by
    unfold slotsLeft; rw [if_pos h0]; rfl
  have traj : ∀ j, 1 ≤ j → j ≤ 4 + s.dimming →
      (inps.take j ≠ []) ∧ (runUpdate s (inps.take j)).current_pos = 4 + s.dimming - j := by
    intro j h1 h2
    have hl : (inps.take j).length = j := by rw [List.length_take]; omega
    have hne : inps.take j ≠ [] := by
      intro h; rw [h] at hl; simp at hl; omega
    refine ⟨hne, ?_⟩
    rw [slot_runUpdate _ s (by omega) (by omega) hne (by rw [hl, hsl]; exact h2), hl, hsl]
  refine ⟨?_, ?_, ?_, ?_⟩
  · intro j h1 h2 pos hpos hon
    obtain ⟨hne, hcp⟩ := traj j h1 (by omega)
    have := ((outputs_runUpdate s _ hne).1 pos hpos).mp hon
    have hp3 : pos < 3 := hpos
    omega
  · intro i hi
    obtain ⟨hne, hcp⟩ := traj (s.dimming + 2 + i) (by omega) (by omega)
    have hc : (runUpdate s (inps.take (s.dimming + 2 + i))).current_pos = 2 - i := by
      rw [hcp]; omega
    obtain ⟨hd, hpd⟩ := outputs_runUpdate s _ hne
    constructor
    · intro pos hpos
      rw [hd pos hpos, hc]
    · rw [hpd, hc, if_pos (by simp [MAX_DIGITS]; omega)]
  · have := (traj (4 + s.dimming) (by omega) (le_refl _)).2
    rw [← hlen, List.take_length] at this
    rw [this]; omega
  · intro j h1 h2 p hp q hq hon1 hon2
    obtain ⟨hne, _⟩ := traj j h1 h2
    have e1 := ((outputs_runUpdate s _ hne).1 p hp).mp hon1
    have e2 := ((outputs_runUpdate s _ hne).1 q hq).mp hon2
    rw [e1, e2]

/-- C12, amended: with a dimming level `k ≤ 252` and the slot counter at 0, the
next `4 + k` calls of `update()` are one full cycle (the slot counter is 0
again after the last call and not before), `k + 1` of them leave no digit
driver enabled, so the dark fraction is `(k + 1) / (3 + 1 + k)`. -/
theorem C12_dark_fraction (s : State) (inps : List TickInput)
    (hk : s.dimming ≤ 252) (h0 : s.current_pos = 0) (hlen : inps.length = 4 + s.dimming) :
    countDark s inps = s.dimming + 1 ∧
    (runUpdate s inps).current_pos = 0 ∧
    (∀ j, 1 ≤ j → j < 4 + s.dimming → (runUpdate s (inps.take j)).current_pos ≠ 0) ∧
    (countDark s inps : ℚ) / (inps.length : ℚ) = ((s.dimming : ℚ) + 1) / (3 + 1 + (s.dimming : ℚ)) := by
  have hsl : slotsLeft s = 4 + s.dimming := by
    unfold slotsLeft; rw [if_pos h0]; rfl
  have hcount : countDark s inps = s.dimming + 1 := by
    rw [countDark_eq inps s hk (by omega) (by omega), hsl, hlen]; omega
  have traj : ∀ j, 1 ≤ j → j ≤ 4 + s.dimming →
      (runUpdate s (inps.take j)).current_pos = 4 + s.dimming - j := by
    intro j h1 h2
    have hl : (inps.take j).length = j := by rw [List.length_take]; omega
    have hne : inps.take j ≠ [] := by
      intro h; rw [h] at hl; simp at hl; omega
    rw [slot_runUpdate _ s hk (by omega) hne (by rw [hl, hsl]; exact h2), hl, hsl]
  refine ⟨hcount, ?_, ?_, ?_⟩
  · have := traj (4 + s.dimming) (by omega) (le_refl _)
    rw [← hlen, List.take_length] at this
    rw [this]; omega
  · intro j h1 h2
    rw [traj j h1 (by omega)]; omega
  · rw [hcount, hlen]
    push_cast
    ring

/-- Witness of C18 at dimming level 0: the second call enables digit 2. -/
theorem C18_refresh_cycle_witness :
    ((setDimming State.zero 0).dimming ≤ 251 ∧ (setDimming State.zero 0).current_pos = 0
      ∧ (List.replicate 4 idleInput).length = 4 + (setDimming State.zero 0).dimming) ∧
    (∀ pos < 3,
      digitDriverOn (runUpdate (setDimming State.zero 0)
        ((List.replicate 4 idleInput).take ((setDimming State.zero 0).dimming + 2 + 0))) pos
        ↔ pos = 2 - 0) :=
  ⟨by decide,
    ((C18_refresh_cycle (setDimming State.zero 0) (List.replicate 4 idleInput) (by decide)
      (by decide) (by decide)).2.1 0 (by decide)).1⟩

/-- Witness of C12 (amended) at dimming level 1: two dark ticks out of five. -/
theorem C12_dark_fraction_witness :
    ((setDimming State.zero 1).dimming ≤ 252 ∧ (setDimming State.zero 1).current_pos = 0
      ∧ (List.replicate 5 idleInput).length = 4 + (setDimming State.zero 1).dimming) ∧
    countDark (setDimming State.zero 1) (List.replicate 5 idleInput)
      = (setDimming State.zero 1).dimming + 1 :=
  ⟨by decide,
    (C12_dark_fraction (setDimming State.zero 1) (List.replicate 5 idleInput) (by decide)
      (by decide) (by decide)).1⟩

/-- C12 as stated fails: at dimming level 0 a full cycle has four ticks, one
of them dark, and `1 / 4` is not `0 / (3 + 1 + 0)`. -/
theorem C12_counterexample :
    (setDimming State.zero 0).current_pos = 0 ∧
    countDark (setDimming State.zero 0) (List.replicate 4 idleInput) = 1 ∧
    (runUpdate (setDimming State.zero 0) (List.replicate 4 idleInput)).current_pos = 0 ∧
    ((countDark (setDimming State.zero 0) (List.replicate 4 idleInput) : ℚ)
        / ((List.replicate 4 idleInput).length : ℚ)
      ≠ (0 : ℚ) / (3 + 1 + 0)) := by
  have h1 : countDark (setDimming State.zero 0) (List.replicate 4 idleInput) = 1 := by decide
  refine ⟨rfl, h1, by decide, ?_⟩
  rw [h1]
  norm_num

/-- C19 at the failing input: with dimming level 253 and the slot counter at 0,
`update()` captures the start time (the sampler is armed) and leaves the
driver of digit 0 enabled on the same tick. -/
theorem C19_arming_tick_lit :
    (setDimming State.zero 253).current_pos = 0 ∧
    (update (setDimming State.zero 253) idleInput).start_time = 77 ∧
    digitDriverOn (update (setDimming State.zero 253) idleInput) 0 ∧
    ¬ allDigitsDark (update (setDimming State.zero 253) idleInput) := by
  decide

/-! ## Long-press timing -/

theorem runSamples_concat (s : State) (pins : List Nat) (x : Nat) :
    runSamples s (pins ++ [x]) = sampleButtons (runSamples s pins) x := by
  simp [runSamples, List.foldl_append]

theorem heldRun_concat (pins : List Nat) (x : Nat) :
    heldRun (pins ++ [x]) = if readButtons x ≠ 0 then heldRun pins + 1 else 0 := by
  unfold heldRun
  rw [List.reverse_append, List.reverse_singleton, List.singleton_append, List.takeWhile_cons]
  by_cases h : readButtons x ≠ 0
  · simp [h]
  · simp [h]

set_option maxRecDepth 100000 in
theorem nextButton_lt :
    ∀ b < 256, ∀ z : Bool, ∀ pb ∈ [0, BUTTON1, BUTTON2, BOTH_BTNS], nextButton b pb z < 256 := by
  decide

set_option maxRecDepth 100000 in
theorem nextButton_released :
    ∀ b < 256, ∀ z : Bool, nextButton b 0 z &&& PB_PRESS ≠ 0 → False := by
  decide

set_option maxRecDepth 100000 in
theorem nextButton_longpress_issue :
    ∀ S ∈ [BUTTON1, BUTTON2, BOTH_BTNS], ∀ b < 256, ∀ z : Bool,
      ∀ pb ∈ [0, BUTTON1, BUTTON2, BOTH_BTNS],
        nextButton b pb z = S ||| PB_LONGPRESS → b ≠ S ||| PB_LONGPRESS →
          pb = S ∧ z = true ∧ b &&& PB_PRESS ≠ 0
            ∧ b &&& (BTN_MASK ||| PB_LONGPRESS) = S ||| PB_PRESS := by
  decide

theorem held_runSamples (s0 : State) (hb0 : s0.button < 256)
    (hp0 : s0.button &&& PB_PRESS = 0) (pins : List Nat) :
    (runSamples s0 pins).button < 256 ∧
    ((runSamples s0 pins).button &&& PB_PRESS ≠ 0 →
      BTN_LONGPRESS_DELAY ≤ (runSamples s0 pins).pb_delay_timer + heldRun pins) := by
  induction pins using List.reverseRecOn with
  | nil => exact ⟨hb0, fun h => absurd hp0 h⟩
  | append_singleton pins x ih =>
    obtain ⟨hlt, hinv⟩ := ih
    rw [runSamples_concat, heldRun_concat]
    have hb := button_sampleButtons (runSamples s0 pins) x
    have ht := pb_delay_timer_sampleButtons (runSamples s0 pins) x
    refine ⟨?_, ?_⟩
    · rw [hb]; exact nextButton_lt _ hlt _ _ (readButtons_mem x)
    · intro hpress
      by_cases hx : readButtons x = 0
      · rw [hb, hx] at hpress
        exact absurd hpress (fun h => nextButton_released _ hlt _ h)
      · rw [if_pos hx, ht]
        by_cases hc : (runSamples s0 pins).button &&& PB_PRESS = 0
        · rw [if_pos ⟨hx, hc⟩]
          simp only [BTN_LONGPRESS_DELAY]; omega
        · rw [if_neg (by tauto)]
          have := hinv hc
          omega

theorem forall_take_of_takeWhile {α : Type} (p : α → Bool) :
    ∀ (l : List α) (n : Nat), n ≤ (l.takeWhile p).length → ∀ x ∈ l.take n, p x = true := by
  intro l
  induction l with
  | nil => intro n _ x hx; simp at hx
  | cons a l ih =>
    intro n hn x hx
    cases n with
    | zero => simp at hx
    | succ n =>
      rw [List.takeWhile_cons] at hn
      by_cases ha : p a = true
      · rw [if_pos ha, List.length_cons] at hn
        rw [List.take_succ_cons, List.mem_cons] at hx
        rcases hx with rfl | hx
        · exact ha
        · exact ih n (by omega) x hx
      · rw [if_neg ha] at hn
        simp at hn

/-- C20, amended: from a released state, when a sample sets the state to
`S | PB_LONGPRESS` (`S` button 1, button 2 or both), that sample shows exactly
`S`, the state before it was a short press of `S`, and the 50 samples
immediately before it all showed at least one button active. -/
theorem C20_long_press_after_delay (s0 : State) (pre : List Nat) (pin S : Nat)
    (hb0 : s0.button < 256) (hp0 : s0.button &&& PB_PRESS = 0)
    (hS : S ∈ [BUTTON1, BUTTON2, BOTH_BTNS])
    (hset : (sampleButtons (runSamples s0 pre) pin).button = S ||| PB_LONGPRESS)
    (hnew : (runSamples s0 pre).button ≠ S ||| PB_LONGPRESS) :
    readButtons pin = S ∧
    (runSamples s0 pre).button &&& (BTN_MASK ||| PB_LONGPRESS) = S ||| PB_PRESS ∧
    BTN_LONGPRESS_DELAY ≤ pre.length ∧
    (∀ x ∈ pre.reverse.take BTN_LONGPRESS_DELAY, readButtons x ≠ 0) := by
  obtain ⟨hlt, hinv⟩ := held_runSamples s0 hb0 hp0 pre
  rw [button_sampleButtons] at hset
  obtain ⟨h1, h2, h3, h4⟩ := nextButton_longpress_issue S hS _ hlt _ _ (readButtons_mem pin)
    hset hnew
  have ht : (runSamples s0 pre).pb_delay_timer = 0 := by simpa using h2
  have hrun := hinv h3
  rw [ht, Nat.zero_add] at hrun
  refine ⟨h1, h4, ?_, ?_⟩
  · have : heldRun pre ≤ pre.reverse.length := (List.takeWhile_sublist _).length_le
    rw [List.length_reverse] at this
    omega
  · intro x hx
    have := forall_take_of_takeWhile _ pre.reverse BTN_LONGPRESS_DELAY hrun x hx
    simpa using this

set_option maxRecDepth 100000 in
/-- C20 as stated fails: after one sample of button 1 and 49 samples of button 2
alone, a sample of button 1 issues the long-press of button 1. -/
theorem C20_counterexample :
    (sampleButtons (runSamples State.zero (0xDF :: List.replicate 49 0x7F)) 0xDF).button
      = BUTTON1 ||| PB_LONGPRESS ∧
    (runSamples State.zero (0xDF :: List.replicate 49 0x7F)).button ≠ BUTTON1 ||| PB_LONGPRESS ∧
    ¬ (∀ x ∈ (0xDF :: List.replicate 49 0x7F).reverse.take BTN_LONGPRESS_DELAY,
        readButtons x = BUTTON1) := by
  decide

set_option maxRecDepth 100000 in
/-- Witness of C20 (amended): button 1 held for 51 samples. -/
theorem C20_long_press_after_delay_witness :
    (State.zero.button < 256 ∧ State.zero.button &&& PB_PRESS = 0
      ∧ BUTTON1 ∈ [BUTTON1, BUTTON2, BOTH_BTNS]
      ∧ (sampleButtons (runSamples State.zero (List.replicate 50 0xDF)) 0xDF).button
          = BUTTON1 ||| PB_LONGPRESS
      ∧ (runSamples State.zero (List.replicate 50 0xDF)).button ≠ BUTTON1 ||| PB_LONGPRESS) ∧
    readButtons 0xDF = BUTTON1 ∧
    (runSamples State.zero (List.replicate 50 0xDF)).button &&& (BTN_MASK ||| PB_LONGPRESS)
      = BUTTON1 ||| PB_PRESS ∧
    BTN_LONGPRESS_DELAY ≤ (List.replicate 50 0xDF).length ∧
    (∀ x ∈ (List.replicate 50 0xDF).reverse.take BTN_LONGPRESS_DELAY, readButtons x ≠ 0) :=
  ⟨by decide,
    C20_long_press_after_delay State.zero (List.replicate 50 0xDF) 0xDF BUTTON1 (by decide)
      (by decide) (by decide) (by decide) (by decide)⟩


/-! ## The detent filter -/

theorem scaleCapture_le (level rc : Nat) (h : rc < 256) : scaleCapture level rc ≤ 382 := by
  have e1 : (rc + rc) % 65536 = rc + rc := Nat.mod_eq_of_lt (by omega)
  have e2 : (rc + rc + rc) % 65536 = 3 * rc := by omega
  have a1 : (rc + rc / 2) % 65536 = rc + rc / 2 := Nat.mod_eq_of_lt (by omega)
  have a3 : (rc + 65536 - rc / 4) % 65536 = rc - rc / 4 := by omega
  have a4 : (rc + 65536 - rc / 2) % 65536 = rc - rc / 2 := by omega
  simp only [scaleCapture, Nat.shiftRight_eq_div_pow, Nat.reducePow, e1, e2, a1, a3, a4]
  split_ifs <;> omega

theorem analog_updateAnalog_exact (s : State) (tcnt0 : Nat)
    (h1 : 1 ≤ s.analog_resolution) (h6 : s.analog_resolution ≤ 6) (hold : s.analog < 256) :
    (updateAnalog s tcnt0).analog =
      (scaleCapture s.analog_resolution (rawCapture s tcnt0) + s.analog + 2) / 4 := by
  rw [analog_updateAnalog_detent s tcnt0 h1 h6]
  have hS := scaleCapture_le s.analog_resolution _ (rawCapture_lt s tcnt0)
  generalize scaleCapture s.analog_resolution (rawCapture s tcnt0) = S at hS ⊢
  simp only [Nat.shiftRight_eq_div_pow]
  omega

theorem frame_updateAnalog (s : State) (tcnt0 : Nat) :
    (updateAnalog s tcnt0).analog_resolution = s.analog_resolution ∧
    (updateAnalog s tcnt0).start_time = s.start_time := by
  unfold updateAnalog
  simp only []
  split_ifs <;> exact ⟨rfl, rfl⟩

theorem rawCapture_congr (s u : State) (tcnt0 : Nat) (h : u.start_time = s.start_time) :
    rawCapture u tcnt0 = rawCapture s tcnt0 := by
  unfold rawCapture; rw [h]

theorem captureN_succ (s : State) (tcnt0 n : Nat) :
    captureN s tcnt0 (n + 1) = updateAnalog (captureN s tcnt0 n) tcnt0 := by
  unfold captureN
  exact Function.iterate_succ_apply' _ _ _

theorem captureN_inv (s : State) (tcnt0 : Nat)
    (h1 : 1 ≤ s.analog_resolution) (h6 : s.analog_resolution ≤ 6) (hold : s.analog < 256) :
    ∀ n, (captureN s tcnt0 n).analog_resolution = s.analog_resolution ∧
      (captureN s tcnt0 n).start_time = s.start_time ∧
      (captureN s tcnt0 n).analog < 256 := by
  intro n
  induction n with
  | zero => exact ⟨rfl, rfl, hold⟩
  | succ n ih =>
    obtain ⟨e1, e2, e3⟩ := ih
    rw [captureN_succ]
    have f := frame_updateAnalog (captureN s tcnt0 n) tcnt0
    refine ⟨f.1.trans e1, f.2.trans e2, ?_⟩
    rw [analog_updateAnalog_exact _ tcnt0 (by omega) (by omega) e3]
    have hS := scaleCapture_le (captureN s tcnt0 n).analog_resolution _
      (rawCapture_lt (captureN s tcnt0 n) tcnt0)
    omega

theorem analog_captureN_succ (s : State) (tcnt0 : Nat)
    (h1 : 1 ≤ s.analog_resolution) (h6 : s.analog_resolution ≤ 6) (hold : s.analog < 256)
    (n : Nat) :
    (captureN s tcnt0 (n + 1)).analog =
      (scaleCapture s.analog_resolution (rawCapture s tcnt0)
        + (captureN s tcnt0 n).analog + 2) / 4 := by
  obtain ⟨e1, e2, e3⟩ := captureN_inv s tcnt0 h1 h6 hold n
  rw [captureN_succ, analog_updateAnalog_exact _ tcnt0 (by omega) (by omega) e3, e1,
    rawCapture_congr s _ tcnt0 e2]

theorem scaleCapture_level_le (rc : Nat) (h : rc < 256) :
    scaleCapture ANALOG_129_DETENT_STEPS rc ≤ 382 ∧ scaleCapture ANALOG_86_DETENT_STEPS rc ≤ 255 ∧
    scaleCapture ANALOG_65_DETENT_STEPS rc ≤ 192 ∧ scaleCapture ANALOG_43_DETENT_STEPS rc ≤ 128 ∧
    scaleCapture ANALOG_33_DETENT_STEPS rc ≤ 95 ∧ scaleCapture ANALOG_22_DETENT_STEPS rc ≤ 63 := by
  have e1 : (rc + rc) % 65536 = rc + rc := Nat.mod_eq_of_lt (by omega)
  have e2 : (rc + rc + rc) % 65536 = 3 * rc := by omega
  have a1 : (rc + rc / 2) % 65536 = rc + rc / 2 := Nat.mod_eq_of_lt (by omega)
  have a3 : (rc + 65536 - rc / 4) % 65536 = rc - rc / 4 := by omega
  have a4 : (rc + 65536 - rc / 2) % 65536 = rc - rc / 2 := by omega
  simp only [scaleCapture, ANALOG_129_DETENT_STEPS, ANALOG_86_DETENT_STEPS,
    ANALOG_65_DETENT_STEPS, ANALOG_43_DETENT_STEPS, ANALOG_33_DETENT_STEPS,
    ANALOG_22_DETENT_STEPS, Nat.shiftRight_eq_div_pow, Nat.reducePow, Nat.reduceEqDiff,
    if_true, if_false, e1, e2, a1, a3, a4]
  refine ⟨?_, ?_, ?_, ?_, ?_, ?_⟩ <;> omega

/-- The range each detent level keeps: the number of values its name gives at
levels 1, 2, 3, 5 and 6, and the 44 values `0..43` at `ANALOG_43_DETENT_STEPS`. -/
theorem detent_range_bounds (s : State) (tcnt0 : Nat) :
    (s.analog_resolution = ANALOG_129_DETENT_STEPS → s.analog < 129 →
      (updateAnalog s tcnt0).analog < 129) ∧
    (s.analog_resolution = ANALOG_86_DETENT_STEPS → s.analog < 86 →
      (updateAnalog s tcnt0).analog < 86) ∧
    (s.analog_resolution = ANALOG_65_DETENT_STEPS → s.analog < 65 →
      (updateAnalog s tcnt0).analog < 65) ∧
    (s.analog_resolution = ANALOG_43_DETENT_STEPS → s.analog < 44 →
      (updateAnalog s tcnt0).analog < 44) ∧
    (s.analog_resolution = ANALOG_33_DETENT_STEPS → s.analog < 33 →
      (updateAnalog s tcnt0).analog < 33) ∧
    (s.analog_resolution = ANALOG_22_DETENT_STEPS → s.analog < 22 →
      (updateAnalog s tcnt0).analog < 22) := by
  obtain ⟨b1, b2, b3, b4, b5, b6⟩ := scaleCapture_level_le _ (rawCapture_lt s tcnt0)
  refine ⟨?_, ?_, ?_, ?_, ?_, ?_⟩ <;> intro h ha <;>
    rw [analog_updateAnalog_exact s tcnt0 (by rw [h]; decide) (by rw [h]; decide) (by omega), h] <;>
    omega

/-- C21 at the failing input: at level `ANALOG_43_DETENT_STEPS` with the raw
capture value 255 and the previous sample 42, `updateAnalog` stores 43, a
44th value outside `0..42`. -/
theorem C21_level_43_stores_43 :
    ({ State.zero with analog := 42, analog_resolution := ANALOG_43_DETENT_STEPS } : State).analog
      < 43 ∧
    rawCapture { State.zero with analog := 42, analog_resolution := ANALOG_43_DETENT_STEPS } 0
      = 255 ∧
    getAnalog (updateAnalog
      { State.zero with analog := 42, analog_resolution := ANALOG_43_DETENT_STEPS } 0) = 43 := by
  decide

theorem filter_step_above (S t r a d : Nat) (ht : S + 2 = 3 * t + r) (hr : r < 3)
    (h : t ≤ a) (hd : a ≤ t + d) :
    t ≤ (S + a + 2) / 4 ∧ (S + a + 2) / 4 ≤ t + (d + 2) / 4 := by
  omega

theorem filter_step_below (S t r a e : Nat) (ht : S + 2 = 3 * t + r) (hr : r < 3)
    (h : a ≤ t) (he : t ≤ a + e) :
    (S + a + 2) / 4 ≤ t ∧ t ≤ (S + a + 2) / 4 + (e + 3) / 4 := by
  omega

theorem filter_fixed_near (S t r a : Nat) (ht : S + 2 = 3 * t + r) (hr : r < 3)
    (h : a ≤ t) (he : t ≤ a + 1) :
    (S + (S + a + 2) / 4 + 2) / 4 = (S + a + 2) / 4 := by
  omega

theorem filter_settles (S a0 a1 a2 a3 a4 a5 a6 : Nat) (hS : S ≤ 382) (h0 : a0 ≤ 255)
    (e1 : a1 = (S + a0 + 2) / 4) (e2 : a2 = (S + a1 + 2) / 4) (e3 : a3 = (S + a2 + 2) / 4)
    (e4 : a4 = (S + a3 + 2) / 4) (e5 : a5 = (S + a4 + 2) / 4) (e6 : a6 = (S + a5 + 2) / 4) :
    a6 = a5 := by
  obtain ⟨t, r, hr, ht⟩ : ∃ t r, r < 3 ∧ S + 2 = 3 * t + r :=
    ⟨(S + 2) / 3, (S + 2) % 3, Nat.mod_lt _ (by decide), by omega⟩
  have ht128 : t ≤ 128 := by omega
  subst e1 e2 e3 e4 e5 e6
  rcases Nat.le_total t a0 with h | h
  · have b1 := filter_step_above S t r a0 255 ht hr h (by omega)
    have b2 := filter_step_above S t r _ _ ht hr b1.1 b1.2
    have b3 := filter_step_above S t r _ _ ht hr b2.1 b2.2
    have b4 := filter_step_above S t r _ _ ht hr b3.1 b3.2
    have b5 := filter_step_above S t r _ _ ht hr b4.1 b4.2
    have c5 : (S + (S + (S + (S + (S + a0 + 2) / 4 + 2) / 4 + 2) / 4 + 2) / 4 + 2) / 4 = t :=
      Nat.le_antisymm b5.2 b5.1
    rw [c5]
    exact (filter_step_above S t r t 0 ht hr (le_refl t) (le_refl t)).2.antisymm
      (filter_step_above S t r t 0 ht hr (le_refl t) (le_refl t)).1
  · have b1 := filter_step_below S t r a0 128 ht hr h (by omega)
    have b2 := filter_step_below S t r _ _ ht hr b1.1 b1.2
    have b3 := filter_step_below S t r _ _ ht hr b2.1 b2.2
    have b4 := filter_step_below S t r _ _ ht hr b3.1 b3.2
    exact filter_fixed_near S t r _ ht hr b4.1 b4.2

theorem filter_mono (S a b : Nat) (h : a ≤ b) : (S + a + 2) / 4 ≤ (S + b + 2) / 4 :=
  Nat.div_le_div_right (by omega)

theorem captureN_monotone (s : State) (tcnt0 : Nat)
    (h1 : 1 ≤ s.analog_resolution) (h6 : s.analog_resolution ≤ 6) (hold : s.analog < 256) :
    (∀ n, (captureN s tcnt0 n).analog ≤ (captureN s tcnt0 (n + 1)).analog) ∨
    (∀ n, (captureN s tcnt0 (n + 1)).analog ≤ (captureN s tcnt0 n).analog) := by
  have step := analog_captureN_succ s tcnt0 h1 h6 hold
  rcases Nat.le_total (captureN s tcnt0 0).analog (captureN s tcnt0 1).analog with h | h
  · left
    intro n
    induction n with
    | zero => exact h
    | succ n ih =>
      have := filter_mono (scaleCapture s.analog_resolution (rawCapture s tcnt0)) _ _ ih
      rw [← step n, ← step (n + 1)] at this
      exact this
  · right
    intro n
    induction n with
    | zero => exact h
    | succ n ih =>
      have := filter_mono (scaleCapture s.analog_resolution (rawCapture s tcnt0)) _ _ ih
      rw [← step n, ← step (n + 1)] at this
      exact this

theorem captureN_settled (s : State) (tcnt0 : Nat)
    (h1 : 1 ≤ s.analog_resolution) (h6 : s.analog_resolution ≤ 6) (hold : s.analog < 256) :
    ∀ n, 5 ≤ n → (captureN s tcnt0 n).analog = (captureN s tcnt0 5).analog := by
  have step := analog_captureN_succ s tcnt0 h1 h6 hold
  have hS := scaleCapture_le s.analog_resolution _ (rawCapture_lt s tcnt0)
  have h0 : (captureN s tcnt0 0).analog ≤ 255 := by
    have : (captureN s tcnt0 0).analog = s.analog := rfl
    omega
  have fix : (captureN s tcnt0 6).analog = (captureN s tcnt0 5).analog :=
    filter_settles _ _ _ _ _ _ _ _ hS h0 (step 0) (step 1) (step 2) (step 3) (step 4) (step 5)
  intro n hn
  induction n with
  | zero => omega
  | succ n ih =>
    rcases Nat.lt_or_ge n 5 with h | h
    · have : n + 1 = 5 := by omega
      rw [this]
    · rw [step n, ih h, ← step 5, fix]

theorem updateAnalog_stable_iff (s : State) (tcnt0 : Nat)
    (h1 : 1 ≤ s.analog_resolution) (h6 : s.analog_resolution ≤ 6) (hold : s.analog < 256) :
    (updateAnalog s tcnt0).analog = s.analog ↔
      3 * s.analog ≤ scaleCapture s.analog_resolution (rawCapture s tcnt0) + 2 ∧
      scaleCapture s.analog_resolution (rawCapture s tcnt0) + 2 ≤ 3 * s.analog + 3 := by
  rw [analog_updateAnalog_exact s tcnt0 h1 h6 hold]
  omega

/-- C22: at a detent level 1 to 6, with a constant raw capture value and a
starting sample below 256, the samples of repeated captures are monotone,
from the fifth capture on the sample no longer changes, and a sample `a` is
left unchanged by a capture exactly when `3*a ≤ scaled + 2 ≤ 3*a + 3`. -/
theorem C22_detent_filter_settles (s : State) (tcnt0 : Nat)
    (h1 : 1 ≤ s.analog_resolution) (h6 : s.analog_resolution ≤ 6) (hold : s.analog < 256) :
    ((∀ n, (captureN s tcnt0 n).analog ≤ (captureN s tcnt0 (n + 1)).analog) ∨
      (∀ n, (captureN s tcnt0 (n + 1)).analog ≤ (captureN s tcnt0 n).analog)) ∧
    (∀ n, 5 ≤ n → (captureN s tcnt0 n).analog = (captureN s tcnt0 5).analog) ∧
    (∀ u : State, u.analog_resolution = s.analog_resolution → u.start_time = s.start_time →
      u.analog < 256 →
      ((updateAnalog u tcnt0).analog = u.analog ↔
        3 * u.analog ≤ scaleCapture s.analog_resolution (rawCapture s tcnt0) + 2 ∧
        scaleCapture s.analog_resolution (rawCapture s tcnt0) + 2 ≤ 3 * u.analog + 3)) := by
  refine ⟨captureN_monotone s tcnt0 h1 h6 hold, captureN_settled s tcnt0 h1 h6 hold, ?_⟩
  intro u hr hs hu
  have := updateAnalog_stable_iff u tcnt0 (by omega) (by omega) hu
  rw [hr, rawCapture_congr s u tcnt0 hs] at this
  exact this

/-- Witness of C22: level 6, raw capture value 0, starting sample 255 (the samples
are 255, 64, 16, 4, 1, 0, 0). -/
theorem C22_detent_filter_settles_witness :
    (1 ≤ ({ State.zero with analog := 255, analog_resolution := 6 } : State).analog_resolution
      ∧ ({ State.zero with analog := 255, analog_resolution := 6 } : State).analog_resolution ≤ 6
      ∧ ({ State.zero with analog := 255, analog_resolution := 6 } : State).analog < 256) ∧
    (captureN { State.zero with analog := 255, analog_resolution := 6 } 1 6).analog
      = (captureN { State.zero with analog := 255, analog_resolution := 6 } 1 5).analog :=
  ⟨by decide,
    (C22_detent_filter_settles { State.zero with analog := 255, analog_resolution := 6 } 1
      (by decide) (by decide) (by decide)).2.1 6 (by decide)⟩

end ProtoCounter
